import Mathlib

/-!
Verification of `source/ExportUnityPackage/export_unity_package.py`
(googlesamples/unity-jar-resolver).

The Python module manipulates YAML/JSON-shaped trees (`collections.OrderedDict`,
lists, scalars).  We shallowly embed such trees as the inductive type `PValue`
below: ordered dictionaries become association lists (preserving insertion
order, which is what `OrderedDict` equality observes), and the in-place
mutation performed by the Python helpers becomes explicit state passing
(each helper consumes a document and returns the updated document).
-/

namespace ExportUnityPackage

/-- A Python value as produced by the JSON/YAML parsers used by
`export_unity_package.py`: `None`, `bool`, `int`, `str`, `list`, and
(ordered) `dict` with string keys. -/
inductive PValue where
  | null : PValue
  | bool : Bool → PValue
  | int : Int → PValue
  | str : String → PValue
  | list : List PValue → PValue
  | dict : List (String × PValue) → PValue
deriving Repr

mutual

/-- Structural (order-sensitive) equality test on `PValue`.  This models
Python `==` between parsed YAML/JSON documents where every mapping is a
`collections.OrderedDict` (as arranged by `YamlSerializer.OrderedLoader`),
for which `OrderedDict.__eq__` is order-sensitive. -/
def pvBeq : PValue → PValue → Bool
  | .null, .null => true
  | .bool a, .bool b => a == b
  | .int a, .int b => a == b
  | .str a, .str b => a == b
  | .list a, .list b => pvListBeq a b
  | .dict a, .dict b => pvDictBeq a b
  | _, _ => false

/-- Elementwise equality of `PValue` lists. -/
def pvListBeq : List PValue → List PValue → Bool
  | [], [] => true
  | a :: as', b :: bs' => pvBeq a b && pvListBeq as' bs'
  | _, _ => false

/-- Itemwise equality of ordered dictionaries (key order matters). -/
def pvDictBeq : List (String × PValue) → List (String × PValue) → Bool
  | [], [] => true
  | (ka, va) :: as', (kb, vb) :: bs' => ka == kb && pvBeq va vb && pvDictBeq as' bs'
  | _, _ => false

end

mutual

theorem pvBeq_eq : ∀ {a b : PValue}, pvBeq a b = true → a = b
  | .null, .null, _ => rfl
  | .bool _, .bool _, h => by
      simp only [pvBeq, beq_iff_eq] at h; simp [h]
  | .int _, .int _, h => by
      simp only [pvBeq, beq_iff_eq] at h; simp [h]
  | .str _, .str _, h => by
      simp only [pvBeq, beq_iff_eq] at h; simp [h]
  | .list a, .list b, h => by
      simp only [pvBeq] at h
      exact congrArg PValue.list (pvListBeq_eq h)
  | .dict a, .dict b, h => by
      simp only [pvBeq] at h
      exact congrArg PValue.dict (pvDictBeq_eq h)

theorem pvListBeq_eq : ∀ {a b : List PValue}, pvListBeq a b = true → a = b
  | [], [], _ => rfl
  | a :: as', b :: bs', h => by
      simp only [pvListBeq, Bool.and_eq_true] at h
      rw [pvBeq_eq h.1, pvListBeq_eq h.2]

theorem pvDictBeq_eq : ∀ {a b : List (String × PValue)}, pvDictBeq a b = true → a = b
  | [], [], _ => rfl
  | (ka, va) :: as', (kb, vb) :: bs', h => by
      simp only [pvDictBeq, Bool.and_eq_true, beq_iff_eq] at h
      rw [h.1.1, pvBeq_eq h.1.2, pvDictBeq_eq h.2]

end

mutual

theorem pvBeq_rfl : ∀ (a : PValue), pvBeq a a = true
  | .null => rfl
  | .bool _ => by simp [pvBeq]
  | .int _ => by simp [pvBeq]
  | .str _ => by simp [pvBeq]
  | .list a => by simp only [pvBeq]; exact pvListBeq_rfl a
  | .dict a => by simp only [pvBeq]; exact pvDictBeq_rfl a

theorem pvListBeq_rfl : ∀ (a : List PValue), pvListBeq a a = true
  | [] => rfl
  | a :: as' => by
      simp only [pvListBeq, Bool.and_eq_true]
      exact ⟨pvBeq_rfl a, pvListBeq_rfl as'⟩

theorem pvDictBeq_rfl : ∀ (a : List (String × PValue)), pvDictBeq a a = true
  | [] => rfl
  | (ka, va) :: as' => by
      simp only [pvDictBeq, Bool.and_eq_true, beq_self_eq_true, true_and]
      exact ⟨pvBeq_rfl va, pvDictBeq_rfl as'⟩

end

instance : DecidableEq PValue := fun a b =>
  if h : pvBeq a b = true then .isTrue (pvBeq_eq h)
  else .isFalse (fun he => h (he ▸ pvBeq_rfl a))

namespace PValue

/-- `d.get(key)` on an (ordered) dictionary: the stored value, if any
(dictionaries built by the parsers have unique keys). -/
def dictGet : List (String × PValue) → String → Option PValue
  | [], _ => none
  | kv :: rest, key => if kv.1 = key then some kv.2 else dictGet rest key

/-- `d[key] = value` on an (ordered) dictionary: replaces the value in place
(keeping the key's position) when the key is present, otherwise appends the
new binding at the end — exactly Python `dict` insertion-order semantics. -/
def dictSet : List (String × PValue) → String → PValue → List (String × PValue)
  | [], key, value => [(key, value)]
  | kv :: rest, key, value =>
    if kv.1 = key then (key, value) :: rest
    else kv :: dictSet rest key value

/-- Python truthiness for the embedded values (`0`, `""`, `[]`, `{}`, `None`
and `False` are falsy). -/
def truthy : PValue → Bool
  | .null => false
  | .bool b => b
  | .int n => n != 0
  | .str s => s ≠ ""
  | .list l => !l.isEmpty
  | .dict d => !d.isEmpty

end PValue

/-- The runtime classes used by `safe_dict_get_value`'s `issubclass` checks.
(`unicode` is an alias of `str` under Python 3, so it needs no own tag.) -/
inductive PClass where
  | noneType : PClass
  | bool : PClass
  | int : PClass
  | str : PClass
  | list : PClass
  | dict : PClass
deriving DecidableEq, Repr

/-- `value.__class__` of an embedded value. -/
def classOf : PValue → PClass
  | .null => .noneType
  | .bool _ => .bool
  | .int _ => .int
  | .str _ => .str
  | .list _ => .list
  | .dict _ => .dict

/-- `issubclass(value.__class__, c)`.  The only non-trivial subclass
relation among the embedded classes is Python's `bool <: int`. -/
def isInstance (v : PValue) (c : PClass) : Bool :=
  classOf v == c || (classOf v == .bool && c == .int)

/-- `safe_dict_get_value(tree_node, key, default_value, value_classes)`
(export_unity_package.py, lines 877-923), translated line by line.

An omitted `default_value` is Python `None` (`PValue.null`); an omitted or
empty `value_classes` list is falsy in Python, so both are represented by
`[]` here (`None` and `[]` behave identically in the source). -/
def safe_dict_get_value (tree_node : PValue) (key : String)
    (default_value : PValue := .null) (value_classes : List PClass := []) :
    PValue :=
  match tree_node with
  | .dict kvs =>
    match PValue.dictGet kvs key with
    | none => default_value
    | some value =>
      if value = .null then default_value
      else if default_value ≠ .null ∨ value_classes ≠ [] then
        let value_classes' :=
          if value_classes.isEmpty then [classOf default_value] else value_classes
        if value_classes'.any (fun c => isInstance value c) then value
        else default_value
      else value
  | _ => default_value

/-- The behaviour claimed for `safe_dict_get_value`, written from the claim's
own words: the stored value is returned only when the node is a dictionary,
the key is present with a non-`None` value, and — when a default value or an
expected class list is supplied — the value is an instance of one of the
expected classes; in every other case the supplied default is returned. -/
def safe_dict_get_value_claimed (tree_node : PValue) (key : String)
    (default_value : PValue) (value_classes : List PClass) : PValue :=
  match tree_node with
  | .dict kvs =>
    match PValue.dictGet kvs key with
    | some value =>
      if value = .null then default_value
      else if default_value = .null ∧ value_classes = [] then value
      else
        let expected := if value_classes = [] then [classOf default_value] else value_classes
        if expected.any (fun c => isInstance value c) then value else default_value
    | none => default_value
  | _ => default_value

/-- Lexicographic (code-point) comparison of character lists — the order
Python uses to compare strings. -/
def charListLe : List Char → List Char → Bool
  | [], _ => true
  | _ :: _, [] => false
  | a :: as', b :: bs' =>
    if a.toNat < b.toNat then true
    else if b.toNat < a.toNat then false
    else charListLe as' bs'

/-- Python `a <= b` on strings. -/
def strLe (a b : String) : Bool :=
  charListLe a.data b.data

/-- `strLe` as a relation, for use with the sorting library. -/
def StrLeR (a b : String) : Prop := strLe a b = true

instance : DecidableRel StrLeR := fun a b =>
  inferInstanceAs (Decidable (strLe a b = true))

theorem charListLe_total : ∀ a b, charListLe a b = true ∨ charListLe b a = true
  | [], _ => .inl rfl
  | _ :: _, [] => .inr rfl
  | a :: as', b :: bs' => by
    unfold charListLe
    split_ifs <;> first
      | exact .inl rfl
      | exact .inr rfl
      | omega
      | exact charListLe_total as' bs'

theorem charListLe_trans :
    ∀ {a b c}, charListLe a b = true → charListLe b c = true →
      charListLe a c = true
  | [], _, _, _, _ => rfl
  | _ :: _, [], _, hab, _ => by cases hab
  | _ :: _, _ :: _, [], _, hbc => by cases hbc
  | a :: as', b :: bs', c :: cs', hab, hbc => by
    unfold charListLe at hab hbc ⊢
    split_ifs at hab hbc ⊢ <;> first
      | rfl
      | omega
      | exact charListLe_trans hab hbc

theorem char_eq_of_toNat_eq {a b : Char} (h : a.toNat = b.toNat) : a = b :=
  Char.eq_of_val_eq (UInt32.ext h)

theorem charListLe_antisymm :
    ∀ {a b}, charListLe a b = true → charListLe b a = true → a = b
  | [], [], _, _ => rfl
  | [], _ :: _, _, hba => by cases hba
  | _ :: _, [], hab, _ => by cases hab
  | a :: as', b :: bs', hab, hba => by
    unfold charListLe at hab hba
    split_ifs at hab hba <;> first
      | omega
      | cases hab
      | cases hba
      | (rename_i h1 h2
         rw [char_eq_of_toNat_eq (by omega : a.toNat = b.toNat),
           charListLe_antisymm hab hba])

instance : IsTotal String StrLeR :=
  ⟨fun a b => by
    unfold StrLeR strLe
    rcases charListLe_total a.data b.data with h | h
    · exact .inl h
    · exact .inr h⟩

instance : IsTrans String StrLeR :=
  ⟨fun _ _ _ hab hbc => charListLe_trans hab hbc⟩

instance : IsAntisymm String StrLeR :=
  ⟨fun a b hab hba => by
    have h := charListLe_antisymm hab hba
    cases a
    cases b
    exact congrArg String.mk h⟩

/-- Python `sorted` on strings (code-point lexicographic; insertion sort is
extensionally the unique sorted arrangement, string order being
antisymmetric). -/
def sortStrings (l : List String) : List String :=
  l.insertionSort StrLeR

/-- Python `sorted(set(l))` on strings. -/
def sortedStringSet (l : List String) : List String :=
  sortStrings l.dedup

/-- `merge_ordered_dicts`'s helper `list_contains_dictionaries_with_keys`
specialised (as in the source) to `UNITY_5_6_PLATFORM_DATA_KEYS =
["first", "second"]`: a non-empty list whose members are all dictionaries
with exactly the keys `first` and `second`. -/
def isPlatformDataPairList (l : PValue) : Bool :=
  match l with
  | .list items =>
    !items.isEmpty &&
      items.all (fun item =>
        match item with
        | .dict kvs => sortStrings (kvs.map (·.1)) == ["first", "second"]
        | _ => false)
  | _ => false

/-- The key/value items of a dictionary value (empty for non-dictionaries). -/
def pvKvs : PValue → List (String × PValue)
  | .dict kvs => kvs
  | _ => []

/-- Merges `from_item` into the first item of the list whose `first` value
matches `key` using `mergeFn`; `none` when no item matches (the source's
`if not merged` case, which then appends). -/
def mergeIntoFirstMatch (mergeFn : PValue → PValue → PValue) :
    List PValue → PValue → Option PValue → Option (List PValue)
  | [], _, _ => none
  | it :: rest, from_item, key =>
    if PValue.dictGet (pvKvs it) "first" == key then
      some (mergeFn it from_item :: rest)
    else (mergeIntoFirstMatch mergeFn rest from_item key).map (it :: ·)

/-- The pair-list branch of `merge_ordered_dicts`: each item of the
`merge_from` list is merged into the first item of the `merge_into` list
with a matching `first` value (the source `break`s after the first match),
or appended when none matches. -/
def mergePairList (mergeFn : PValue → PValue → PValue)
    (into_items from_items : List PValue) : List PValue :=
  from_items.foldl
    (fun acc from_item =>
      match mergeIntoFirstMatch mergeFn acc from_item
          (PValue.dictGet (pvKvs from_item) "first") with
      | some merged_items => merged_items
      | none => acc ++ [from_item])
    into_items

/-- One iteration of `merge_ordered_dicts`'s
`for merge_from_key, merge_from_value in merge_from.items()` loop. -/
def mergeStep (mergeFn : PValue → PValue → PValue)
    (acc : List (String × PValue)) (kf : String × PValue) :
    List (String × PValue) :=
  let key := kf.1
  let from_value := kf.2
  match PValue.dictGet acc key with
  | some into_value =>
    if into_value = .null then PValue.dictSet acc key from_value
    else
      match into_value, from_value with
      | .dict _, .dict _ => PValue.dictSet acc key (mergeFn into_value from_value)
      | .list into_items, .list from_items =>
        if isPlatformDataPairList (.list into_items) &&
            isPlatformDataPairList (.list from_items) then
          PValue.dictSet acc key (.list (mergePairList mergeFn into_items from_items))
        else PValue.dictSet acc key (.list from_items)
      | _, _ => PValue.dictSet acc key from_value
  | none => PValue.dictSet acc key from_value

/-- `merge_ordered_dicts(merge_into, merge_from)` (lines 801-874), with an
explicit recursion-depth bound.  The source's recursion strictly descends
the `merge_from` document (into an item's value, or into a member of a
pair list), so any `fuel` at least `sizeOf merge_from` makes the `fuel = 0`
cutoff unreachable; `merge_ordered_dicts` below instantiates it that way.

The source's pair-list merge compares `str(item["first"])` representations;
for parsed documents this coincides with structural equality of the `first`
values, which is how the key match is modelled here. -/
def mergeD : Nat → PValue → PValue → PValue
  | 0, merge_into, _ => merge_into
  | fuel + 1, merge_into, merge_from =>
    match merge_into, merge_from with
    | .dict into_kvs, .dict from_kvs =>
      .dict (from_kvs.foldl (mergeStep (fun a b => mergeD fuel a b)) into_kvs)
    | _, _ => merge_into

mutual

/-- Structural size of a value, used as the recursion-depth budget for
`merge_ordered_dicts` (it strictly exceeds the nesting depth). -/
def pvDepth : PValue → Nat
  | .null => 1
  | .bool _ => 1
  | .int _ => 1
  | .str _ => 1
  | .list xs => 1 + pvListDepth xs
  | .dict kvs => 1 + pvDictDepth kvs

/-- Structural size of a list of values. -/
def pvListDepth : List PValue → Nat
  | [] => 0
  | x :: xs => pvDepth x + pvListDepth xs

/-- Structural size of the items of a dictionary. -/
def pvDictDepth : List (String × PValue) → Nat
  | [] => 0
  | (_, v) :: kvs => pvDepth v + pvDictDepth kvs

end

/-- `merge_ordered_dicts(merge_into, merge_from)` at a sufficient depth
bound. -/
def merge_ordered_dicts (merge_into merge_from : PValue) : PValue :=
  mergeD (pvDepth merge_from) merge_into merge_from

theorem dictGet_eq_none_of_not_mem :
    ∀ {kvs : List (String × PValue)} {k : String},
      k ∉ kvs.map Prod.fst → PValue.dictGet kvs k = none
  | [], _, _ => rfl
  | kv :: rest, k, h => by
    rw [PValue.dictGet, if_neg, dictGet_eq_none_of_not_mem (by simp_all)]
    exact fun he => h (by simp [he])

theorem dictSet_of_not_mem :
    ∀ {kvs : List (String × PValue)} {k : String} {v : PValue},
      k ∉ kvs.map Prod.fst → PValue.dictSet kvs k v = kvs ++ [(k, v)]
  | [], _, _, _ => rfl
  | kv :: rest, k, v, h => by
    rw [PValue.dictSet, if_neg, dictSet_of_not_mem (by simp_all), List.cons_append]
    exact fun he => h (by simp [he])

theorem dictGet_dictSet_self (kvs : List (String × PValue)) (k : String)
    (v : PValue) : PValue.dictGet (PValue.dictSet kvs k v) k = some v := by
  induction kvs with
  | nil => simp [PValue.dictSet, PValue.dictGet]
  | cons kv rest ih =>
    rw [PValue.dictSet]
    by_cases h : kv.1 = k
    · rw [if_pos h, PValue.dictGet, if_pos rfl]
    · rw [if_neg h, PValue.dictGet, if_neg h, ih]

theorem dictGet_dictSet_ne (kvs : List (String × PValue)) {k k' : String}
    (v : PValue) (h : k ≠ k') :
    PValue.dictGet (PValue.dictSet kvs k v) k' = PValue.dictGet kvs k' := by
  induction kvs with
  | nil => simp [PValue.dictSet, PValue.dictGet, h]
  | cons kv rest ih =>
    rw [PValue.dictSet]
    by_cases hh : kv.1 = k
    · rw [if_pos hh, PValue.dictGet, if_neg h, PValue.dictGet, if_neg (hh ▸ h)]
    · rw [if_neg hh, PValue.dictGet, PValue.dictGet]
      by_cases hk' : kv.1 = k'
      · rw [if_pos hk', if_pos hk']
      · rw [if_neg hk', if_neg hk', ih]

theorem foldl_mergeStep_disjoint (mergeFn : PValue → PValue → PValue) :
    ∀ (from_kvs acc : List (String × PValue)),
      (∀ k ∈ from_kvs.map Prod.fst, k ∉ acc.map Prod.fst) →
      (from_kvs.map Prod.fst).Nodup →
      from_kvs.foldl (mergeStep mergeFn) acc = acc ++ from_kvs
  | [], acc, _, _ => by simp
  | (k, v) :: rest, acc, hdisj, hnodup => by
    have hget : PValue.dictGet acc k = none :=
      dictGet_eq_none_of_not_mem (hdisj k (by simp))
    have hset : PValue.dictSet acc k v = acc ++ [(k, v)] :=
      dictSet_of_not_mem (hdisj k (by simp))
    have hstep : mergeStep mergeFn acc (k, v) = acc ++ [(k, v)] := by
      simp only [mergeStep, hget, hset]
    rw [List.foldl_cons, hstep,
      foldl_mergeStep_disjoint mergeFn rest (acc ++ [(k, v)])
        (by
          intro k' hk'
          simp only [List.map_append, List.map_cons, List.map_nil, List.mem_append,
            List.mem_singleton, not_or]
          refine ⟨hdisj k' (by simp [hk']), ?_⟩
          simp only [List.map_cons, List.nodup_cons] at hnodup
          exact fun he => hnodup.1 (he ▸ hk'))
        (by simpa using hnodup.of_cons),
      List.append_assoc]
    rfl

/-- C7: merging the empty override into a document returns it unchanged, and
merging a document into the empty document returns an equal document
(left and right identity of `{}` under `merge_ordered_dicts`).  The key
hypothesis — keys are not repeated — holds for every real Python dictionary,
in particular for platform-data documents in either serialization shape. -/
theorem merge_ordered_dicts_empty_identity (kvs : List (String × PValue))
    (h : (kvs.map Prod.fst).Nodup) :
    merge_ordered_dicts (.dict kvs) (.dict []) = .dict kvs ∧
    merge_ordered_dicts (.dict []) (.dict kvs) = .dict kvs := by
  constructor
  · rw [merge_ordered_dicts, pvDepth, Nat.add_comm]
    simp [mergeD]
  · rw [merge_ordered_dicts, pvDepth, Nat.add_comm]
    simp only [mergeD]
    rw [foldl_mergeStep_disjoint _ kvs [] (by simp) h, List.nil_append]

/-- Witness for C7 at a concrete plugin-importer document carrying
platform data in the Unity 5.6+ pair-list serialization shape. -/
theorem merge_ordered_dicts_empty_identity_witness :
    (([("PluginImporter", PValue.dict
        [("serializedVersion", .int 2),
         ("platformData", .list
           [.dict [("first", .dict [("Any", .str "Any")]),
                   ("second", .dict [("enabled", .int 1)])]])])].map Prod.fst).Nodup) ∧
    (merge_ordered_dicts (.dict
        [("PluginImporter", PValue.dict
          [("serializedVersion", .int 2),
           ("platformData", .list
             [.dict [("first", .dict [("Any", .str "Any")]),
                     ("second", .dict [("enabled", .int 1)])]])])]) (.dict []) = .dict
        [("PluginImporter", PValue.dict
          [("serializedVersion", .int 2),
           ("platformData", .list
             [.dict [("first", .dict [("Any", .str "Any")]),
                     ("second", .dict [("enabled", .int 1)])]])])] ∧
     merge_ordered_dicts (.dict []) (.dict
        [("PluginImporter", PValue.dict
          [("serializedVersion", .int 2),
           ("platformData", .list
             [.dict [("first", .dict [("Any", .str "Any")]),
                     ("second", .dict [("enabled", .int 1)])]])])]) = .dict
        [("PluginImporter", PValue.dict
          [("serializedVersion", .int 2),
           ("platformData", .list
             [.dict [("first", .dict [("Any", .str "Any")]),
                     ("second", .dict [("enabled", .int 1)])]])])]) :=
  ⟨by decide, merge_ordered_dicts_empty_identity _ (by decide)⟩

/-- C10: `safe_dict_get_value` is total — it is a Lean function, defined on
every input — and returns the stored value exactly when the node is a
dictionary, the key is present with a non-`None` value, and (when a default
value or an expected class list is supplied) the value is an instance of one
of the expected classes; in every other case it returns the supplied
default, as captured by `safe_dict_get_value_claimed`, which is written from
the claim's words. -/
theorem safe_dict_get_value_eq_claimed (tree_node : PValue) (key : String)
    (default_value : PValue) (value_classes : List PClass) :
    safe_dict_get_value tree_node key default_value value_classes =
      safe_dict_get_value_claimed tree_node key default_value value_classes := by
  cases tree_node with
  | dict kvs =>
    simp only [safe_dict_get_value, safe_dict_get_value_claimed]
    cases PValue.dictGet kvs key with
    | none => rfl
    | some value =>
      by_cases hnull : value = PValue.null
      · simp [hnull]
      · by_cases hd : default_value = PValue.null
        · by_cases hc : value_classes = []
          · simp [hnull, hd, hc]
          · simp [hnull, hd, hc, List.isEmpty_iff]
        · by_cases hc : value_classes = []
          · simp [hnull, hd, hc, List.isEmpty_iff]
          · simp [hnull, hd, hc, List.isEmpty_iff]
  | null => rfl
  | bool b => rfl
  | int n => rfl
  | str s => rfl
  | list l => rfl

/-! ### Constants of the metadata template engine -/

/-- `DEFAULT_IMPORTER_DATA`. -/
def DEFAULT_IMPORTER_DATA : List (String × PValue) :=
  [("userData", .null), ("assetBundleName", .null), ("assetBundleVariant", .null)]

/-- `DEFAULT_PLATFORM_SETTINGS_EMPTY_DISABLED`. -/
def DEFAULT_PLATFORM_SETTINGS_EMPTY_DISABLED : PValue :=
  .dict [("enabled", .int 0), ("settings", .dict [])]

/-- `DEFAULT_PLATFORM_SETTINGS_DISABLED`. -/
def DEFAULT_PLATFORM_SETTINGS_DISABLED : PValue :=
  .dict [("enabled", .int 0), ("settings", .dict [("CPU", .str "AnyCPU")])]

/-- `DEFAULT_PLATFORM_SETTINGS_EDITOR`. -/
def DEFAULT_PLATFORM_SETTINGS_EDITOR : PValue :=
  .dict [("enabled", .int 0),
         ("settings", .dict [("CPU", .str "AnyCPU"),
                             ("DefaultValueInitialized", .bool true),
                             ("OS", .str "AnyOS")])]

/-- `DEFAULT_PLATFORM_SETTINGS_DISABLED_CPU_NONE`. -/
def DEFAULT_PLATFORM_SETTINGS_DISABLED_CPU_NONE : PValue :=
  .dict [("enabled", .int 0), ("settings", .dict [("CPU", .str "None")])]

/-- `DEFAULT_PLATFORM_SETTINGS_DISABLED_IOS` (and `_TVOS`, which is
identical). -/
def DEFAULT_PLATFORM_SETTINGS_DISABLED_IOS : PValue :=
  .dict [("enabled", .int 0),
         ("settings", .dict [("CompileFlags", .null),
                             ("FrameworkDependencies", .null)])]

/-- The `platformData` section of `PLUGIN_IMPORTER_METADATA_TEMPLATE`
(lines 414-455), in the source's key order. -/
def TEMPLATE_PLATFORM_DATA : List (String × PValue) :=
  [("Android", DEFAULT_PLATFORM_SETTINGS_DISABLED),
   ("Any", DEFAULT_PLATFORM_SETTINGS_EMPTY_DISABLED),
   ("Editor", DEFAULT_PLATFORM_SETTINGS_EDITOR),
   ("Linux", DEFAULT_PLATFORM_SETTINGS_DISABLED_CPU_NONE),
   ("Linux64", DEFAULT_PLATFORM_SETTINGS_DISABLED_CPU_NONE),
   ("LinuxUniversal", DEFAULT_PLATFORM_SETTINGS_DISABLED_CPU_NONE),
   ("OSXIntel", DEFAULT_PLATFORM_SETTINGS_DISABLED_CPU_NONE),
   ("OSXIntel64", DEFAULT_PLATFORM_SETTINGS_DISABLED_CPU_NONE),
   ("OSXUniversal", DEFAULT_PLATFORM_SETTINGS_DISABLED_CPU_NONE),
   ("Web", DEFAULT_PLATFORM_SETTINGS_EMPTY_DISABLED),
   ("WebStreamed", DEFAULT_PLATFORM_SETTINGS_EMPTY_DISABLED),
   ("Win", DEFAULT_PLATFORM_SETTINGS_DISABLED_CPU_NONE),
   ("Win64", DEFAULT_PLATFORM_SETTINGS_DISABLED_CPU_NONE),
   ("WindowsStoreApps", DEFAULT_PLATFORM_SETTINGS_DISABLED),
   ("iOS", DEFAULT_PLATFORM_SETTINGS_DISABLED_IOS),
   ("tvOS", DEFAULT_PLATFORM_SETTINGS_DISABLED_IOS)]

/-- `PLUGIN_IMPORTER_METADATA_TEMPLATE`. -/
def PLUGIN_IMPORTER_METADATA_TEMPLATE : PValue :=
  .dict [("PluginImporter", .dict
    ([("serializedVersion", .int 1),
      ("iconMap", .dict []),
      ("executionOrder", .dict []),
      ("isPreloaded", .int 0),
      ("platformData", .dict TEMPLATE_PLATFORM_DATA)] ++ DEFAULT_IMPORTER_DATA))]

/-- `PLATFORM_TARGET_BY_PLATFORM`. -/
def PLATFORM_TARGET_BY_PLATFORM : List (String × String) :=
  [("Any", "Any"), ("Editor", "Editor"), ("Android", "Android"),
   ("Linux", "Standalone"), ("Linux64", "Standalone"),
   ("LinuxUniversal", "Standalone"), ("OSXIntel", "Standalone"),
   ("OSXIntel64", "Standalone"), ("OSXUniversal", "Standalone"),
   ("Web", "WebGL"), ("WebStreamed", ""), ("Win", "Standalone"),
   ("Win64", "Standalone"), ("WindowsStoreApps", "Windows Store Apps"),
   ("iOS", "iPhone"), ("tvOS", "tvOS")]

/-- `PLATFORMS_BY_SHARED_LIBRARY_EXTENSION` (`.get` view; the source stores
Python sets, of which only membership is observed). -/
def PLATFORMS_BY_SHARED_LIBRARY_EXTENSION (ext : String) : Option (List String) :=
  if ext = ".so" then some ["Any", "Editor", "Linux", "Linux64", "LinuxUniversal"]
  else if ext = ".bundle" then
    some ["Any", "Editor", "OSXIntel", "OSXIntel64", "OSXUniversal"]
  else if ext = ".dll" then some ["Any", "Editor", "Win", "Win64"]
  else none

/-- `CPU_BY_DESKTOP_PLATFORM` (`.get` view). -/
def CPU_BY_DESKTOP_PLATFORM (platform : String) : Option String :=
  if platform = "Linux" then some "x86"
  else if platform = "OSXIntel" then some "x86"
  else if platform = "Win" then some "x86"
  else if platform = "Linux64" then some "x86_64"
  else if platform = "OSXIntel64" then some "x86_64"
  else if platform = "Win64" then some "x86_64"
  else if platform = "LinuxUniversal" then some "AnyCPU"
  else if platform = "OSXUniversal" then some "AnyCPU"
  else none

/-! ### Path helpers -/

/-- Splits a character list on a separator character (like Python
`str.split(sep)`: the result always has at least one — possibly empty —
part). -/
def charSplit (sep : Char) : List Char → List (List Char)
  | [] => [[]]
  | c :: rest =>
    let r := charSplit sep rest
    if c = sep then [] :: r
    else
      match r with
      | h :: t => (c :: h) :: t
      | [] => [[c]]

/-- The `/`-separated components of a path. -/
def pathComps (path : String) : List String :=
  (charSplit '/' path.data).map (fun l => String.mk l)

/-- Joins path components with `/`. -/
def joinSlash : List String → String
  | [] => ""
  | [c] => c
  | c :: rest => c ++ "/" ++ joinSlash rest

/-- `posix_path(path)`: converts backslash separators to `/`. -/
def posix_path (path : String) : String :=
  String.mk (path.data.map (fun c => if c = '\x5c' then '/' else c))

/-- `os.path.normpath` for POSIX paths: drops empty and `.` components and
resolves `..` against preceding components (the repository only ever
normalises relative asset paths; the POSIX double-leading-slash special
case is not reproduced). -/
def normpath (path : String) : String :=
  let isAbs := path.data.head? = some '/'
  let comps := (pathComps path).foldl
    (fun acc c =>
      if c = "" ∨ c = "." then acc
      else if c = ".." then
        if isAbs then
          match acc with
          | [] => []
          | _ => acc.dropLast
        else
          match acc.getLast? with
          | none => [".."]
          | some ".." => acc ++ [".."]
          | some _ => acc.dropLast
      else acc ++ [c])
    []
  let joined := joinSlash comps
  if isAbs then "/" ++ joined
  else if joined = "" then "." else joined

/-- The extension component of `os.path.splitext(path)`: the suffix of the
final path component starting at its last `.`, unless every character
before that `.` is itself a `.` (leading dots do not begin an extension). -/
def splitext_ext (path : String) : String :=
  let base := (pathComps path).getLastD ""
  let parts := (charSplit '.' base.data).map (fun l => String.mk l)
  if parts.length ≥ 2 ∧ ¬ (parts.dropLast.all (· = "")) then
    "." ++ parts.getLastD ""
  else ""

/-- Whether a component list contains adjacent components
`Plugins/(x86|x86_64)/` followed by at least one further component —
the directory part of the `SHARED_LIBRARY_PATH` regular expression. -/
def hasSharedLibDir : List String → Bool
  | [] => false
  | [_] => false
  | c1 :: c2 :: rest =>
    (c1 == "Plugins" && (c2 == "x86" || c2 == "x86_64") && !rest.isEmpty) ||
      hasSharedLibDir (c2 :: rest)

/-- `SHARED_LIBRARY_PATH.search(path)` for the anchored expression
`(^|/)Plugins/(x86|x86_64)/(.*/|)[^/]+\.(so|dll|bundle)$`: the path contains
a component-aligned `Plugins/x86[_64]/` directory and its final component is
a non-empty stem followed by one of the shared-library extensions. -/
def sharedLibraryPathMatch (path : String) : Bool :=
  let comps := pathComps path
  let last := (comps.getLastD "").data
  let lastOk := ["so", "dll", "bundle"].any (fun ext =>
    ('.' :: ext.data).isSuffixOf last && last.length > ext.data.length + 1)
  hasSharedLibDir comps && lastOk

/-- Offset from the end of the (un-reversed) list to the end of the last
occurrence of ".so", scanning a reversed character list. -/
def revFindDotSo : List Char → Option Nat
  | 'o' :: 's' :: '.' :: _ => some 0
  | _ :: rest => (revFindDotSo rest).map (· + 1)
  | [] => none

/-- `LINUX_SHARED_LIBRARY_PATH.match(path)` for
`^Plugins/(x86|x86_64)/(.*\.so)` (a prefix match with no end anchor):
returns the second capture group — everything after the architecture
directory up to and including the last `.so` — when the pattern matches. -/
def linuxSharedLibraryMatchGroup2 (path : String) : Option String :=
  match pathComps path with
  | "Plugins" :: arch :: rest =>
    if arch == "x86" || arch == "x86_64" then
      let r := (joinSlash rest).data
      -- The greedy `(.*\.so)` group: the prefix of `r` up to and including
      -- the last occurrence of ".so" (found by scanning the reversal).
      let revOffset := revFindDotSo r.reverse
      match revOffset with
      | some k => some (String.mk (r.take (r.length - k)))
      | none => none
    else none
  | _ => none

/-! ### Asset metadata transforms

The four static helpers of `Asset` mutate their `importer_metadata` argument
in place; here each becomes a function from the document to the updated
document.  Where the source obtains a nested node through
`safe_dict_get_value(..., default_value={})` and then mutates it, the
mutation is visible in the enclosing document only when the node was
actually present (with the right class) — otherwise the source mutated a
fresh default dictionary that is then dropped.  The write-back helpers below
reproduce exactly that aliasing behaviour.

Pathological documents on which Python would raise `TypeError`/`IndexError`
(a platform entry that is not a dictionary, a pair-list `first` with no
items, unsortable mixed label types) are mapped to "leave the node
unchanged"; the claims' theorems restrict to well-formed documents where
this difference cannot be observed. -/

/-- `d[key] = value` deleting first (`del d[key]`) — removes the binding. -/
def dictDel (kvs : List (String × PValue)) (key : String) :
    List (String × PValue) :=
  kvs.filter (fun kv => kv.1 ≠ key)

/-- Python integer-equality comparison `v == n` for a parsed scalar,
including `True == 1` / `False == 0`. -/
def pyEqInt (v : PValue) (n : Int) : Bool :=
  match v with
  | .int m => m == n
  | .bool b => (if b then (1 : Int) else 0) == n
  | _ => false

/-- `Asset.add_labels_to_metadata(importer_metadata, labels)`
(lines 1229-1247).  The union of existing and new labels is modelled over
the string elements of the stored list (the only label type the exporter
ever writes). -/
def add_labels_to_metadata (importer_metadata : PValue) (labels : List String) :
    PValue :=
  let existing_labels := safe_dict_get_value importer_metadata "labels" .null [.list]
  let existing_strs : List String :=
    match existing_labels with
    | .list l => l.filterMap (fun v => match v with | .str s => some s | _ => none)
    | _ => []
  let new_labels := sortedStringSet (existing_strs ++ labels)
  match importer_metadata with
  | .dict kvs =>
    if new_labels ≠ [] then
      .dict (PValue.dictSet kvs "labels" (.list (new_labels.map PValue.str)))
    else if existing_labels ≠ .null then .dict (dictDel kvs "labels")
    else importer_metadata
  | _ => importer_metadata

/-- Sets `cfg["enabled"] = v` on a platform configuration dictionary
(non-dictionary configurations are left unchanged; Python would raise). -/
def configSetEnabled (cfg : PValue) (v : PValue) : PValue :=
  match cfg with
  | .dict kvs => .dict (PValue.dictSet kvs "enabled" v)
  | _ => cfg

/-- Write-back for the serialization-version-1 helpers: replaces
`metadata["PluginImporter"]["platformData"]` with `pd` when both nodes are
present dictionaries; otherwise the source mutated detached defaults and
the document is unchanged. -/
def setPlatformDataDict (metadata : PValue) (pd : List (String × PValue)) :
    PValue :=
  match metadata with
  | .dict mkvs =>
    match PValue.dictGet mkvs "PluginImporter" with
    | some (.dict pkvs) =>
      match PValue.dictGet pkvs "platformData" with
      | some (.dict _) =>
        .dict (PValue.dictSet mkvs "PluginImporter"
          (.dict (PValue.dictSet pkvs "platformData" (.dict pd))))
      | _ => metadata
    | _ => metadata
  | _ => metadata

/-- Write-back for the serialization-version-2 branches: the source assigns
`plugin_importer["platformData"] = ...` explicitly (or mutates entries of
the stored list in place), which lands in the document only when
`metadata["PluginImporter"]` is a present dictionary. -/
def setPlatformDataValue (metadata : PValue) (pdv : PValue) : PValue :=
  match metadata with
  | .dict mkvs =>
    match PValue.dictGet mkvs "PluginImporter" with
    | some (.dict pkvs) =>
      .dict (PValue.dictSet mkvs "PluginImporter"
        (.dict (PValue.dictSet pkvs "platformData" pdv)))
    | _ => metadata
  | _ => metadata

/-- The body of `disable_unsupported_platforms`'s
`for current_platform in disable_platforms` loop: resets the platform's
entry to its `PLUGIN_IMPORTER_METADATA_TEMPLATE` default (which is
disabled).  A platform name outside the template leaves the data unchanged
(the source raises `KeyError` there — unreachable for documents whose
platform names come from the template). -/
def disableToTemplateDefault (pd : List (String × PValue)) (p : String) :
    List (String × PValue) :=
  match PValue.dictGet TEMPLATE_PLATFORM_DATA p with
  | some default_config => PValue.dictSet pd p default_config
  | none => pd

/-- `Asset.disable_unsupported_platforms(importer_metadata, filename)`
(lines 1249-1298). -/
def disable_unsupported_platforms (importer_metadata : PValue)
    (filename : String) : PValue :=
  let filename := posix_path (normpath filename)
  if ¬ sharedLibraryPathMatch filename then importer_metadata
  else
    match PLATFORMS_BY_SHARED_LIBRARY_EXTENSION (splitext_ext filename) with
    | none => importer_metadata
    | some supported_platforms =>
      let plugin_importer :=
        safe_dict_get_value importer_metadata "PluginImporter" (.dict [])
      let serialized_version :=
        safe_dict_get_value plugin_importer "serializedVersion" (.int 1)
      if ¬ pyEqInt serialized_version 1 then importer_metadata
      else
        let platform_data :=
          safe_dict_get_value plugin_importer "platformData" (.dict [])
        let pd := pvKvs platform_data
        let disable_platforms := sortedStringSet
          ((pd.map Prod.fst).filter (fun k => ! supported_platforms.contains k))
        if disable_platforms.isEmpty then importer_metadata
        else
          let any_config := (PValue.dictGet pd "Any").getD (.dict [])
          let pd := PValue.dictSet pd "Any" (configSetEnabled any_config (.int 0))
          let pd := disable_platforms.foldl disableToTemplateDefault pd
          setPlatformDataDict importer_metadata pd

/-- `Asset.platform_data_get_entry(platform_data_item)` (lines 1300-1323):
the `(first, second)` pair of a serialization-version-2 platform entry,
unwrapping the Unity 5.6 `data` envelope when present. -/
def platform_data_get_entry (platform_data_item : PValue) : PValue × PValue :=
  let entry := (PValue.dictGet (pvKvs platform_data_item) "data").getD
    platform_data_item
  (safe_dict_get_value entry "first" (.dict []),
   safe_dict_get_value entry "second" (.dict []))

/-- Applies `f` to the `second` dictionary of a version-2 platform entry,
through the `data` envelope when present; entries whose `second` is absent
or not a dictionary are unchanged (the source then mutated a detached
default). -/
def entryUpdateSecond (entry : PValue) (f : List (String × PValue) → List (String × PValue)) :
    PValue :=
  match entry with
  | .dict ekvs =>
    match PValue.dictGet ekvs "data" with
    | some (.dict dkvs) =>
      match PValue.dictGet dkvs "second" with
      | some (.dict skvs) =>
        .dict (PValue.dictSet ekvs "data"
          (.dict (PValue.dictSet dkvs "second" (.dict (f skvs)))))
      | _ => entry
    | some _ => entry
    | none =>
      match PValue.dictGet ekvs "second" with
      | some (.dict skvs) => .dict (PValue.dictSet ekvs "second" (.dict (f skvs)))
      | _ => entry
  | _ => entry

/-- The `settings`-updating step shared by the CPU helpers: when
`settings.get("CPU", "None") == "None"`, stores `cpu` into the settings and
re-assigns them. -/
def settingsSetCpuIfNone (container : List (String × PValue)) (cpu : String) :
    List (String × PValue) :=
  match (PValue.dictGet container "settings").getD (.dict []) with
  | .dict skvs =>
    if (PValue.dictGet skvs "CPU").getD (.str "None") == PValue.str "None" then
      PValue.dictSet container "settings"
        (.dict (PValue.dictSet skvs "CPU" (.str cpu)))
    else container
  | _ => container

/-- `Asset.set_cpu_for_desktop_platforms(importer_metadata)`
(lines 1325-1375). -/
def set_cpu_for_desktop_platforms (importer_metadata : PValue) : PValue :=
  let plugin_importer :=
    safe_dict_get_value importer_metadata "PluginImporter" (.dict [])
  let serialized_version :=
    safe_dict_get_value plugin_importer "serializedVersion" (.int 1)
  if pyEqInt serialized_version 1 then
    let platform_data :=
      safe_dict_get_value plugin_importer "platformData" (.dict [])
    let pd := (pvKvs platform_data).map (fun kv =>
      let (platform_name, options) := kv
      if ¬ PValue.truthy (safe_dict_get_value options "enabled" (.int 0)) then kv
      else
        match CPU_BY_DESKTOP_PLATFORM platform_name with
        | none => kv
        | some cpu =>
          match options with
          | .dict okvs => (platform_name, .dict (settingsSetCpuIfNone okvs cpu))
          | _ => kv)
    setPlatformDataDict importer_metadata pd
  else
    let platform_data :=
      safe_dict_get_value plugin_importer "platformData" (.list [])
    let pdv : PValue :=
      match platform_data with
      | .list entries =>
        .list (entries.map (fun entry =>
          let (first, second) := platform_data_get_entry entry
          match pvKvs first with
          | [] => entry
          | (_, platform_name) :: _ =>
            if ¬ PValue.truthy ((PValue.dictGet (pvKvs second) "enabled").getD (.int 0))
            then entry
            else
              match platform_name with
              | .str name =>
                match CPU_BY_DESKTOP_PLATFORM name with
                | none => entry
                | some cpu => entryUpdateSecond entry (fun skvs => settingsSetCpuIfNone skvs cpu)
              | _ => entry))
      | _ => platform_data
    match platform_data with
    | .list _ => setPlatformDataValue importer_metadata pdv
    | _ => importer_metadata

/-- `Asset.apply_any_platform_selection(importer_metadata)`
(lines 1426-1503). -/
def apply_any_platform_selection (importer_metadata : PValue) : PValue :=
  let plugin_importer :=
    safe_dict_get_value importer_metadata "PluginImporter" (.dict [])
  let serialized_version :=
    safe_dict_get_value plugin_importer "serializedVersion" (.int 1)
  if pyEqInt serialized_version 1 then
    let platform_data :=
      safe_dict_get_value plugin_importer "platformData" (.dict [])
    let pd := pvKvs platform_data
    let any_enabled :=
      (PValue.dictGet (pvKvs ((PValue.dictGet pd "Any").getD (.dict []))) "enabled").getD
        (.int 0)
    if ¬ PValue.truthy any_enabled then importer_metadata
    else
      let pd := TEMPLATE_PLATFORM_DATA.foldl
        (fun pd kv =>
          let (platform_name, default_config) := kv
          let config :=
            match PValue.dictGet pd platform_name with
            | some v => if v = .null then default_config else v
            | none => default_config
          PValue.dictSet pd platform_name (configSetEnabled config any_enabled))
        pd
      setPlatformDataDict importer_metadata pd
  else
    let platform_data :=
      safe_dict_get_value plugin_importer "platformData" (.list [])
    let entries := match platform_data with | .list l => l | _ => []
    let any_enabled := (entries.findSome? (fun entry =>
      let (first, second) := platform_data_get_entry entry
      if (pvKvs first).any (fun kv => kv.1 == "Any") then
        some ((PValue.dictGet (pvKvs second) "enabled").getD (.int 0))
      else none)).getD (.int 0)
    if ¬ PValue.truthy any_enabled then importer_metadata
    else
      let unity_5_6_format := entries.foldl
        (fun _ entry => (pvKvs entry).any (fun kv => kv.1 == "data")) false
      let remaining_platforms := ((TEMPLATE_PLATFORM_DATA.map Prod.fst).filter
        (· ≠ "Any")).filter (fun name =>
          ¬ entries.any (fun entry =>
            match pvKvs (platform_data_get_entry entry).1 with
            | (_, .str n) :: _ => n == name
            | _ => false))
      let new_platform_data := entries.map (fun entry =>
        match pvKvs (platform_data_get_entry entry).1 with
        | [] => entry
        | _ :: _ =>
          entryUpdateSecond entry
            (fun skvs => PValue.dictSet skvs "enabled" any_enabled))
      let appended := remaining_platforms.map (fun name =>
        let platform_target := ((PLATFORM_TARGET_BY_PLATFORM.find?
          (fun kv => kv.1 == name)).map Prod.snd).getD ""
        let entry : PValue := .dict
          [("first", .dict [(platform_target, .str name)]),
           ("second", .dict [("enabled", any_enabled)])]
        if unity_5_6_format then PValue.dict [("data", entry)] else entry)
      match platform_data with
      | .list _ =>
        setPlatformDataValue importer_metadata (.list (new_platform_data ++ appended))
      | _ => importer_metadata

/-- The mutable state of an `Asset`: its export path and the stored base
importer-metadata document (`_importer_metadata`). -/
structure AssetState where
  filename : String
  base : PValue
deriving DecidableEq, Repr

/-- The label set computed inside the `Asset.importer_metadata` property
(lines 1514-1544): the `gvh_linuxlibname-` label for Linux shared
libraries, plus the `gvhp_exportpath-` label. -/
def importerMetadataLabels (filename : String) : List String :=
  let linux_labels : List String :=
    match linuxSharedLibraryMatchGroup2 filename with
    | some group2 =>
      let basename := ((pathComps group2).getLastD "").data
      let basename :=
        if "lib".data.isPrefixOf basename then basename.drop 3 else basename
      let basename :=
        if ['.', 's', 'o'].isSuffixOf basename then
          basename.take (basename.length - 3)
        else basename
      ["gvh_linuxlibname-" ++
        String.mk (basename.map (fun c => if c = '_' then '-' else c))]
    | none => []
  linux_labels ++ ["gvhp_exportpath-" ++ filename]

/-- The `Asset.importer_metadata` property (lines 1514-1551) as a function
of the asset's stored state: deep-copies the stored base document and
applies the four transforms in the source's fixed order.  The second
component is the asset state after the read — unchanged, because the
transform chain operates on the `copy.deepcopy` of `_importer_metadata`,
never on the stored document itself. -/
def importer_metadata_read (a : AssetState) : PValue × AssetState :=
  let metadata := a.base
  let metadata := add_labels_to_metadata metadata (importerMetadataLabels a.filename)
  let metadata := disable_unsupported_platforms metadata a.filename
  let metadata := apply_any_platform_selection metadata
  let metadata := set_cpu_for_desktop_platforms metadata
  (metadata, a)

/-! ### Observations on metadata documents -/

/-- The `enabled` flag stored for `platform` under
`doc["PluginImporter"]["platformData"]`. -/
def getPlatformEnabled (doc : PValue) (platform : String) : Option PValue :=
  (PValue.dictGet
    (pvKvs ((PValue.dictGet
      (pvKvs ((PValue.dictGet (pvKvs doc) "PluginImporter").getD .null))
      "platformData").getD .null))
    platform).bind
    (fun cfg => PValue.dictGet (pvKvs cfg) "enabled")

/-- C4: reading an asset's effective importer metadata leaves the stored
base document unchanged (the property operates on a deep copy), the value
read is exactly the four transforms — add-labels,
disable-unsupported-platforms, apply-any-platform-selection,
set-cpu-for-desktop-platforms — applied in that fixed order to the stored
base document, and two successive reads without an intervening mutation of
the base return equal metadata documents. -/
theorem importer_metadata_read_pure (a : AssetState) :
    (importer_metadata_read a).2 = a ∧
    (importer_metadata_read a).1 =
      set_cpu_for_desktop_platforms
        (apply_any_platform_selection
          (disable_unsupported_platforms
            (add_labels_to_metadata a.base (importerMetadataLabels a.filename))
            a.filename)) ∧
    (importer_metadata_read ((importer_metadata_read a).2)).1 =
      (importer_metadata_read a).1 :=
  ⟨rfl, rfl, rfl⟩

/-! ### C5: a second `apply_any_platform_selection` pass -/

/-- A serialization-version-1 document with the "Any" platform and the
"Win" platform enabled. -/
def c5_doc0 : PValue :=
  .dict [("PluginImporter", .dict
    [("serializedVersion", .int 1),
     ("platformData", .dict
       [("Any", .dict [("enabled", .int 1)]),
        ("Win", .dict [("enabled", .int 1)])])])]

/-- `c5_doc0` after one `apply_any_platform_selection` pass. -/
def c5_doc1 : PValue := apply_any_platform_selection c5_doc0

/-- `c5_doc1` after re-disabling the single concrete platform "Win",
leaving the "Any" entry itself unchanged. -/
def c5_doc2 : PValue :=
  match c5_doc1 with
  | .dict mkvs =>
    match PValue.dictGet mkvs "PluginImporter" with
    | some (.dict pkvs) =>
      match PValue.dictGet pkvs "platformData" with
      | some (.dict pd) =>
        .dict (PValue.dictSet mkvs "PluginImporter"
          (.dict (PValue.dictSet pkvs "platformData"
            (.dict (PValue.dictSet pd "Win"
              (configSetEnabled ((PValue.dictGet pd "Win").getD .null) (.int 0)))))))
      | _ => c5_doc1
    | _ => c5_doc1
  | _ => c5_doc1

/-- Counterexample to C5 as stated: starting from a Plugin-importer
document with "Any" enabled, applying `apply_any_platform_selection` once,
then disabling only the concrete platform "Win" (the "Any" entry is left
enabled and unchanged), a second application re-enables "Win". -/
theorem apply_any_platform_selection_reenables :
    getPlatformEnabled c5_doc0 "Any" = some (.int 1) ∧
    getPlatformEnabled c5_doc2 "Any" = some (.int 1) ∧
    getPlatformEnabled c5_doc2 "Win" = some (.int 0) ∧
    getPlatformEnabled (apply_any_platform_selection c5_doc2) "Win" =
      some (.int 1) := by
  decide

/-- The condition under which `apply_any_platform_selection` leaves a
document alone: the "Any" platform entry is absent or not enabled, read in
whichever serialization shape the document declares — exactly the state
`disable_unsupported_platforms` establishes whenever it disables anything. -/
def anySelectionDisabled (doc : PValue) : Bool :=
  let plugin_importer := safe_dict_get_value doc "PluginImporter" (.dict [])
  let serialized_version :=
    safe_dict_get_value plugin_importer "serializedVersion" (.int 1)
  if pyEqInt serialized_version 1 then
    let platform_data :=
      safe_dict_get_value plugin_importer "platformData" (.dict [])
    let pd := pvKvs platform_data
    ! PValue.truthy
      ((PValue.dictGet (pvKvs ((PValue.dictGet pd "Any").getD (.dict []))) "enabled").getD
        (.int 0))
  else
    let platform_data :=
      safe_dict_get_value plugin_importer "platformData" (.list [])
    let entries := match platform_data with | .list l => l | _ => []
    ! PValue.truthy
      ((entries.findSome? (fun entry =>
        let (first, second) := platform_data_get_entry entry
        if (pvKvs first).any (fun kv => kv.1 == "Any") then
          some ((PValue.dictGet (pvKvs second) "enabled").getD (.int 0))
        else none)).getD (.int 0))

/-- C5 (amended): a second `apply_any_platform_selection` pass cannot
re-enable a re-disabled concrete platform only when the "Any" entry is
itself disabled (or absent) — as `disable_unsupported_platforms` arranges
whenever it disables a platform; in that state the pass leaves the whole
document unchanged, so every disabled platform stays disabled.  (When
"Any" is left enabled, the pass re-enables every platform —
`apply_any_platform_selection_reenables`.) -/
theorem apply_any_platform_selection_noop_of_any_disabled (doc : PValue)
    (h : anySelectionDisabled doc = true) :
    apply_any_platform_selection doc = doc ∧
    ∀ p v, getPlatformEnabled doc p = some v →
      getPlatformEnabled (apply_any_platform_selection doc) p = some v := by
  have hid : apply_any_platform_selection doc = doc := by
    unfold apply_any_platform_selection
    unfold anySelectionDisabled at h
    by_cases hsv : pyEqInt
        (safe_dict_get_value (safe_dict_get_value doc "PluginImporter" (.dict []))
          "serializedVersion" (.int 1)) 1 = true
    · rw [if_pos hsv] at h ⊢
      rw [if_pos]
      simpa using h
    · rw [if_neg hsv] at h ⊢
      rw [if_pos]
      simpa using h
  exact ⟨hid, fun p v hv => by rw [hid]; exact hv⟩

/-- Witness for the amended C5 at `c5_doc2` with the "Any" entry also
disabled (as `disable_unsupported_platforms` would leave it). -/
theorem apply_any_platform_selection_noop_witness :
    (anySelectionDisabled
      (.dict [("PluginImporter", .dict
        [("serializedVersion", .int 1),
         ("platformData", .dict
           [("Any", .dict [("enabled", .int 0)]),
            ("Win", .dict [("enabled", .int 0)]),
            ("Editor", .dict [("enabled", .int 1)])])])]) = true) ∧
    apply_any_platform_selection
      (.dict [("PluginImporter", .dict
        [("serializedVersion", .int 1),
         ("platformData", .dict
           [("Any", .dict [("enabled", .int 0)]),
            ("Win", .dict [("enabled", .int 0)]),
            ("Editor", .dict [("enabled", .int 1)])])])]) =
      (.dict [("PluginImporter", .dict
        [("serializedVersion", .int 1),
         ("platformData", .dict
           [("Any", .dict [("enabled", .int 0)]),
            ("Win", .dict [("enabled", .int 0)]),
            ("Editor", .dict [("enabled", .int 1)])])])]) :=
  ⟨by decide,
   (apply_any_platform_selection_noop_of_any_disabled _ (by decide)).1⟩

/-! ### C6: `disable_unsupported_platforms` -/

theorem dictGet_mem :
    ∀ {kvs : List (String × PValue)} {k : String} {e : PValue},
      PValue.dictGet kvs k = some e → (k, e) ∈ kvs
  | kv :: rest, k, e, h => by
    rw [PValue.dictGet] at h
    by_cases hk : kv.1 = k
    · rw [if_pos hk] at h
      injection h with h2
      cases kv with
      | mk a b =>
        cases hk
        cases h2
        exact List.mem_cons_self _ _
    · rw [if_neg hk] at h
      exact List.mem_cons_of_mem _ (dictGet_mem h)

/-- Every platform entry of the plugin-importer template is disabled. -/
theorem template_entry_disabled {k : String} {e : PValue}
    (h : PValue.dictGet TEMPLATE_PLATFORM_DATA k = some e) :
    PValue.dictGet (pvKvs e) "enabled" = some (.int 0) := by
  have hall : ∀ kv ∈ TEMPLATE_PLATFORM_DATA,
      PValue.dictGet (pvKvs kv.2) "enabled" = some (.int 0) := by decide
  exact hall (k, e) (dictGet_mem h)

/-- Each shared-library extension's supported-platform set contains
"Any". -/
theorem supported_contains_any {ext : String} {s : List String}
    (h : PLATFORMS_BY_SHARED_LIBRARY_EXTENSION ext = some s) :
    s.contains "Any" = true := by
  unfold PLATFORMS_BY_SHARED_LIBRARY_EXTENSION at h
  split_ifs at h
  all_goals (injection h with h; subst h; decide)

theorem mem_sortedStringSet {a : String} {l : List String} :
    a ∈ sortedStringSet l ↔ a ∈ l := by
  unfold sortedStringSet sortStrings
  rw [(List.perm_insertionSort StrLeR l.dedup).mem_iff, List.mem_dedup]

theorem nodup_sortedStringSet (l : List String) : (sortedStringSet l).Nodup := by
  unfold sortedStringSet sortStrings
  exact (List.perm_insertionSort StrLeR l.dedup).nodup_iff.mpr l.nodup_dedup

theorem foldl_disable_preserve :
    ∀ (l : List String) (pd : List (String × PValue)) (k : String), k ∉ l →
      PValue.dictGet (l.foldl disableToTemplateDefault pd) k = PValue.dictGet pd k
  | [], _, _, _ => rfl
  | p :: rest, pd, k, h => by
    rw [List.foldl_cons,
      foldl_disable_preserve rest _ k (fun hm => h (List.mem_cons_of_mem _ hm))]
    unfold disableToTemplateDefault
    cases PValue.dictGet TEMPLATE_PLATFORM_DATA p with
    | none => rfl
    | some d => exact dictGet_dictSet_ne pd d (fun he => h (he ▸ List.mem_cons_self _ _))

theorem foldl_disable_sets :
    ∀ (l : List String) (pd : List (String × PValue)) (k : String) (e : PValue),
      l.Nodup → k ∈ l → PValue.dictGet TEMPLATE_PLATFORM_DATA k = some e →
      PValue.dictGet (l.foldl disableToTemplateDefault pd) k = some e
  | p :: rest, pd, k, e, hnd, hmem, htempl => by
    rw [List.foldl_cons]
    rcases List.mem_cons.mp hmem with he | hrest
    · subst he
      rw [foldl_disable_preserve rest _ k (List.nodup_cons.mp hnd).1]
      unfold disableToTemplateDefault
      rw [htempl, dictGet_dictSet_self]
    · exact foldl_disable_sets rest _ k e (List.nodup_cons.mp hnd).2 hrest htempl

/-- `safe_dict_get_value` with a dictionary default returns a stored
dictionary value. -/
theorem safe_dict_get_value_dict {kvs v : List (String × PValue)}
    {k : String} (d : List (String × PValue))
    (h : PValue.dictGet kvs k = some (.dict v)) :
    safe_dict_get_value (.dict kvs) k (.dict d) = .dict v := by
  simp [safe_dict_get_value, h, isInstance, classOf]

/-- The all-platforms-enabled plugin-importer platform data. -/
def c6_pd : List (String × PValue) :=
  TEMPLATE_PLATFORM_DATA.map (fun kv => (kv.1, configSetEnabled kv.2 (.int 1)))

/-- The `PluginImporter` section with every platform enabled. -/
def c6_pkvs : List (String × PValue) :=
  [("serializedVersion", .int 1),
   ("iconMap", .dict []),
   ("executionOrder", .dict []),
   ("isPreloaded", .int 0),
   ("platformData", .dict c6_pd)] ++ DEFAULT_IMPORTER_DATA

/-- Plugin-importer metadata with every platform enabled. -/
def c6_all_enabled : PValue := .dict [("PluginImporter", .dict c6_pkvs)]

/-- C6 (amended): for an asset whose (normalised) export path matches the
shared-library location pattern `(^|/)Plugins/(x86|x86_64)/.../*.{so,dll,bundle}`
and whose metadata uses serialization version 1,
`disable_unsupported_platforms` force-disables every platform of the
document's `platformData` that is not in the extension's supported-platform
set, and disables the "Any" meta-platform whenever at least one platform is
disabled; in particular, applied to metadata with all platforms enabled for
the path `Plugins/x86/Foo/bar.bundle`, only the Editor and OSX platforms
remain enabled and "Any" is disabled. -/
theorem disable_unsupported_platforms_spec
    (mkvs pkvs pd : List (String × PValue)) (filename : String)
    (supported : List String)
    (hpi : PValue.dictGet mkvs "PluginImporter" = some (.dict pkvs))
    (hsv : pyEqInt (safe_dict_get_value (.dict pkvs) "serializedVersion" (.int 1)) 1
      = true)
    (hpd : PValue.dictGet pkvs "platformData" = some (.dict pd))
    (hmatch : sharedLibraryPathMatch (posix_path (normpath filename)) = true)
    (hext : PLATFORMS_BY_SHARED_LIBRARY_EXTENSION
      (splitext_ext (posix_path (normpath filename))) = some supported)
    (hkeys : ∀ k ∈ pd.map Prod.fst, (PValue.dictGet TEMPLATE_PLATFORM_DATA k).isSome)
    (hany : PValue.dictGet pd "Any" = none ∨
      ∃ akvs, PValue.dictGet pd "Any" = some (.dict akvs)) :
    (∀ k ∈ pd.map Prod.fst, supported.contains k = false →
      getPlatformEnabled (disable_unsupported_platforms (.dict mkvs) filename) k =
        some (.int 0)) ∧
    ((∃ k, k ∈ pd.map Prod.fst ∧ supported.contains k = false) →
      getPlatformEnabled (disable_unsupported_platforms (.dict mkvs) filename) "Any" =
        some (.int 0)) ∧
    (TEMPLATE_PLATFORM_DATA.map Prod.fst).map (fun p =>
        (p, getPlatformEnabled
          (disable_unsupported_platforms c6_all_enabled "Plugins/x86/Foo/bar.bundle") p)) =
      [("Android", some (.int 0)), ("Any", some (.int 0)),
       ("Editor", some (.int 1)), ("Linux", some (.int 0)),
       ("Linux64", some (.int 0)), ("LinuxUniversal", some (.int 0)),
       ("OSXIntel", some (.int 1)), ("OSXIntel64", some (.int 1)),
       ("OSXUniversal", some (.int 1)), ("Web", some (.int 0)),
       ("WebStreamed", some (.int 0)), ("Win", some (.int 0)),
       ("Win64", some (.int 0)), ("WindowsStoreApps", some (.int 0)),
       ("iOS", some (.int 0)), ("tvOS", some (.int 0))] := by
  have hanycont := supported_contains_any hext
  set D := sortedStringSet
    ((pd.map Prod.fst).filter (fun k => ! supported.contains k)) with hD
  set anyCfg := configSetEnabled ((PValue.dictGet pd "Any").getD (.dict [])) (.int 0)
    with hanyCfg
  set pd1 := PValue.dictSet pd "Any" anyCfg with hpd1
  set pd2 := D.foldl disableToTemplateDefault pd1 with hpd2
  have hmemD : ∀ k, k ∈ D ↔ (k ∈ pd.map Prod.fst ∧ supported.contains k = false) := by
    intro k
    rw [hD, mem_sortedStringSet, List.mem_filter]
    simp
  have hred : D.isEmpty = false →
      disable_unsupported_platforms (.dict mkvs) filename =
        .dict (PValue.dictSet mkvs "PluginImporter"
          (.dict (PValue.dictSet pkvs "platformData" (.dict pd2)))) := by
    intro hne
    unfold disable_unsupported_platforms
    simp only [hmatch, not_true_eq_false, if_false,
      hext, safe_dict_get_value_dict [] hpi, safe_dict_get_value_dict [] hpd, hsv,
      not_true_eq_false, if_false, pvKvs, ← hD, hne, Bool.false_eq_true,
      setPlatformDataDict, hpi, hpd, ← hanyCfg, ← hpd1, ← hpd2]
  have hgetPE : ∀ k,
      getPlatformEnabled
        (.dict (PValue.dictSet mkvs "PluginImporter"
          (.dict (PValue.dictSet pkvs "platformData" (.dict pd2))))) k =
        (PValue.dictGet pd2 k).bind (fun cfg => PValue.dictGet (pvKvs cfg) "enabled") := by
    intro k
    unfold getPlatformEnabled
    rw [pvKvs, dictGet_dictSet_self, Option.getD_some, pvKvs, dictGet_dictSet_self,
      Option.getD_some, pvKvs]
  refine ⟨?_, ?_, by decide⟩
  · intro k hk hkc
    have hkD : k ∈ D := (hmemD k).mpr ⟨hk, hkc⟩
    have hne : D.isEmpty = false := by
      cases hDe : D.isEmpty
      · rfl
      · rw [List.isEmpty_iff] at hDe
        rw [hDe] at hkD
        cases hkD
    obtain ⟨e, he⟩ := Option.isSome_iff_exists.mp (hkeys k hk)
    rw [hred hne, hgetPE,
      foldl_disable_sets D pd1 k e (nodup_sortedStringSet _) hkD he,
      Option.some_bind, template_entry_disabled he]
  · rintro ⟨k, hk, hkc⟩
    have hkD : k ∈ D := (hmemD k).mpr ⟨hk, hkc⟩
    have hne : D.isEmpty = false := by
      cases hDe : D.isEmpty
      · rfl
      · rw [List.isEmpty_iff] at hDe
        rw [hDe] at hkD
        cases hkD
    have hAnyNotD : "Any" ∉ D := by
      intro hmem
      have := ((hmemD "Any").mp hmem).2
      rw [hanycont] at this
      cases this
    rw [hred hne, hgetPE, hpd2, foldl_disable_preserve D pd1 "Any" hAnyNotD,
      hpd1, dictGet_dictSet_self, Option.some_bind]
    rcases hany with hnone | ⟨akvs, hsome⟩
    · rw [hanyCfg, hnone]
      rfl
    · rw [hanyCfg, hsome]
      simp only [Option.getD_some, configSetEnabled, pvKvs, dictGet_dictSet_self]

/-- A v1 document with only the Linux platform, enabled. -/
def c6cx_doc : PValue :=
  .dict [("PluginImporter", .dict
    [("serializedVersion", .int 1),
     ("platformData", .dict [("Linux", .dict [("enabled", .int 1)])])])]

/-- A serialization-version-2 document with the Linux platform enabled. -/
def c6cx_v2doc : PValue :=
  .dict [("PluginImporter", .dict
    [("serializedVersion", .int 2),
     ("platformData", .list
       [.dict [("first", .dict [("Standalone", .str "Linux")]),
               ("second", .dict [("enabled", .int 1)])]])])]

/-- Counterexample to C6 as stated: a shared-library file extension alone
does not trigger the transform.  For `Foo/bar.dll` — extension `.dll`, but
not under a `Plugins/(x86|x86_64)/` directory — the enabled Linux platform
(not in `.dll`'s supported set) is left enabled, and for a
serialization-version-2 document even a matching path leaves the document
unchanged. -/
theorem disable_unsupported_platforms_requires_path_and_v1 :
    (splitext_ext (posix_path (normpath "Foo/bar.dll")) = ".dll" ∧
     disable_unsupported_platforms c6cx_doc "Foo/bar.dll" = c6cx_doc ∧
     getPlatformEnabled (disable_unsupported_platforms c6cx_doc "Foo/bar.dll")
       "Linux" = some (.int 1)) ∧
    (sharedLibraryPathMatch (posix_path (normpath "Plugins/x86/Foo/bar.dll")) = true ∧
     disable_unsupported_platforms c6cx_v2doc "Plugins/x86/Foo/bar.dll" = c6cx_v2doc) := by
  decide

/-- Witness for the amended C6 at the all-platforms-enabled document and
the path `Plugins/x86/Foo/bar.bundle` (a `.bundle` shared library). -/
theorem disable_unsupported_platforms_spec_witness :
    (PValue.dictGet [("PluginImporter", PValue.dict c6_pkvs)] "PluginImporter" =
        some (.dict c6_pkvs) ∧
      sharedLibraryPathMatch (posix_path (normpath "Plugins/x86/Foo/bar.bundle")) = true ∧
      PLATFORMS_BY_SHARED_LIBRARY_EXTENSION
        (splitext_ext (posix_path (normpath "Plugins/x86/Foo/bar.bundle"))) =
        some ["Any", "Editor", "OSXIntel", "OSXIntel64", "OSXUniversal"]) ∧
    getPlatformEnabled
      (disable_unsupported_platforms (.dict [("PluginImporter", PValue.dict c6_pkvs)])
        "Plugins/x86/Foo/bar.bundle") "Web" = some (.int 0) :=
  ⟨⟨by decide, by decide, by decide⟩,
   (disable_unsupported_platforms_spec [("PluginImporter", PValue.dict c6_pkvs)]
      c6_pkvs c6_pd "Plugins/x86/Foo/bar.bundle"
      ["Any", "Editor", "OSXIntel", "OSXIntel64", "OSXUniversal"]
      (by decide) (by decide) (by decide) (by decide) (by decide) (by decide)
      (Or.inr ⟨[("enabled", .int 1), ("settings", .dict [])], by decide⟩)).1
    "Web" (by decide) (by decide)⟩

/-! ### C1: the GUID database

`GuidDatabase.__init__` (lines 964-996) reads the version-keyed GUID store.
Store versions have the shape `major.minor.patch` (`VALID_VERSION_RE`,
`gen_guids.py`), so `packaging.version.Version` ordering is the
lexicographic order on the three numeric components, and the
`if plugin_version:` truthiness check always passes (a version string is
non-empty). -/

/-- A `major.minor.patch` plugin version. -/
abbrev Ver := Nat × Nat × Nat

/-- `packaging.version.Version` comparison `a <= b` for release-only
versions. -/
def verLe (a b : Ver) : Bool :=
  if a.1 < b.1 then true
  else if b.1 < a.1 then false
  else if a.2.1 < b.2.1 then true
  else if b.2.1 < a.2.1 then false
  else a.2.2 ≤ b.2.2

/-- Lookup in a string-valued ordered dictionary. -/
def strDictGet : List (String × String) → String → Option String
  | [], _ => none
  | kv :: rest, key => if kv.1 = key then some kv.2 else strDictGet rest key

/-- Store into a string-valued ordered dictionary (update in place or
append). -/
def strDictSet : List (String × String) → String → String → List (String × String)
  | [], key, value => [(key, value)]
  | kv :: rest, key, value =>
    if kv.1 = key then (key, value) :: rest
    else kv :: strDictSet rest key value

/-- Descending insertion of a version into a sorted-descending list. -/
def insertVerDesc (v : Ver) : List Ver → List Ver
  | [] => [v]
  | w :: rest => if verLe w v then v :: w :: rest else w :: insertVerDesc v rest

/-- `sorted(guids_json, key=packaging.version.Version, reverse=True)`. -/
def sortVersDesc : List Ver → List Ver
  | [] => []
  | v :: rest => insertVerDesc v (sortVersDesc rest)

/-- `GuidDatabase.__init__(duplicate_guids_checker, guids_json,
plugin_version)` (lines 964-996): the `_guids_by_path` mapping after
construction.  Note the fallback loop tests `filename not in guid_map` —
membership in the *target version's* map only, not in the accumulated
database — while iterating versions in descending order, each older
version's entry overwriting the previous one. -/
def guid_database_init (guids_json : List (Ver × List (String × String)))
    (plugin_version : Ver) : List (String × String) :=
  let guid_map :=
    ((guids_json.find? (fun kv => kv.1 = plugin_version)).map (·.2)).getD []
  let db := guid_map.foldl
    (fun db fg => strDictSet db (posix_path fg.1) fg.2) []
  let versions_desc := sortVersDesc (guids_json.map (·.1))
  versions_desc.foldl
    (fun db v =>
      if verLe plugin_version v then db
      else
        match (guids_json.find? (fun kv => kv.1 = v)).map (·.2) with
        | some guids_by_filename =>
          guids_by_filename.foldl
            (fun db fg =>
              if (guid_map.find? (fun kv' => kv'.1 = fg.1)).isSome then db
              else strDictSet db (posix_path fg.1) fg.2)
            db
        | none => db)
    db

instance {ε α : Type} [DecidableEq ε] [DecidableEq α] :
    DecidableEq (Except ε α) := fun x y =>
  match x, y with
  | .ok a, .ok b =>
    if h : a = b then .isTrue (by rw [h]) else .isFalse (by intro hh; cases hh; exact h rfl)
  | .error a, .error b =>
    if h : a = b then .isTrue (by rw [h]) else .isFalse (by intro hh; cases hh; exact h rfl)
  | .ok _, .error _ => .isFalse (by intro h; cases h)
  | .error _, .ok _ => .isFalse (by intro h; cases h)

/-- `GuidDatabase.get_guid(path)` (lines 1037-1053): `MissingGuidsError`
(modelled as `.error [path]`) when no — or a falsy — GUID is stored. -/
def get_guid (db : List (String × String)) (path : String) :
    Except (List String) String :=
  match strDictGet db (posix_path path) with
  | some g => if g = "" then .error [posix_path path] else .ok g
  | none => .error [posix_path path]

/-- C1 evaluated at the failing input: for the store
`{"1.0.0": {"a/b.cs": "G1"}, "1.2.0": {"a/b.cs": "G2"}}` queried at target
version `2.0.0` — where the path is absent at the target and the nearest
prior version defining it is `1.2.0` — the database resolves to `G1`, the
GUID of the *oldest* prior version, not the claimed nearest-prior `G2`.
(Explicit pins at the target version itself do win, per the first two
conjuncts.) -/
theorem guid_database_oldest_prior_wins :
    get_guid (guid_database_init
        [((1, 0, 0), [("a/b.cs", "G1")]), ((1, 2, 0), [("a/b.cs", "G2")])]
        (1, 2, 0)) "a/b.cs" = .ok "G2" ∧
    get_guid (guid_database_init
        [((1, 0, 0), [("a/b.cs", "G1")]), ((1, 2, 0), [("a/b.cs", "G2")])]
        (1, 0, 0)) "a/b.cs" = .ok "G1" ∧
    get_guid (guid_database_init
        [((1, 0, 0), [("a/b.cs", "G1")]), ((1, 2, 0), [("a/b.cs", "G2")])]
        (2, 0, 0)) "a/b.cs" = .ok "G1" := by
  decide

/-! ### C2 / C8: `PackageConfiguration.find_assets`

`find_assets` (lines 2220-2303) aggregates, per contributing package name,
the assets discovered on disk, then detects metadata conflicts,
deduplicates, sorts and filters.  The filesystem expansion
(`AssetConfiguration.find_assets`) is I/O; the aggregation it feeds is
modelled by its result: an ordered association of package name to asset
list (`assets_by_package_name`).  An asset is its export path (the
`filename` property, the canonical key) together with its effective
importer metadata (`importer_metadata`, which line 2268 compares with
`!=`); the metadata document is kept abstract as a type `M` with decidable
equality, which is all the source observes of it. -/

section FindAssets

variable {M : Type} [DecidableEq M]

/-- A resolved asset: export path and effective importer metadata. -/
structure AssetR (M : Type) where
  filename : String
  meta : M
deriving DecidableEq, Repr

/-- The `(package_name, asset)` pairs in aggregation order — the iteration
order of `assets_by_package_name` (self first, then includes) with each
package's assets in discovery order. -/
def flattenPkgs (grouped : List (String × List (AssetR M))) :
    List (String × AssetR M) :=
  grouped.flatMap (fun pa => pa.2.map (fun a => (pa.1, a)))

/-- Accumulates a key, keeping only its first occurrence. -/
def keysInOrderStep (acc : List String) (f : String) : List String :=
  if f ∈ acc then acc else acc ++ [f]

/-- The distinct filenames of a list in first-occurrence order — the key
iteration order of the `package_and_assets_by_filename` dictionary. -/
def keysInOrder (l : List String) : List String :=
  l.foldl keysInOrderStep []

/-- The package names collected by the conflict scan of lines 2262-2273:
for every adjacent pair of a filename's `(package, asset)` bucket whose
effective metadata differs, both package names (the source accumulates
them into a set; `sortedStringSet` is applied by the caller). -/
def adjDiff : List (String × AssetR M) → List String
  | [] => []
  | [_] => []
  | (p1, a1) :: (p2, a2) :: rest =>
    (if a1.meta ≠ a2.meta then [p1, p2] else []) ++ adjDiff ((p2, a2) :: rest)

/-- The `duplicate_assets_errors` accumulated by lines 2258-2278, as
structured `(filename, sorted package set)` pairs (the source formats each
as "File %s imported with different import settings in packages %s"). -/
def duplicateAssetsErrors (flat : List (String × AssetR M)) :
    List (String × List String) :=
  (keysInOrder (flat.map (·.2.filename))).filterMap (fun f =>
    let group := flat.filter (fun pa => pa.2.filename = f)
    if group.length ≤ 1 then none
    else
      let d := adjDiff group
      if d.isEmpty then none else some (f, sortedStringSet d))

/-- Asset order used by `Asset.sorted_by_filename` (lines 1718-1729):
by export path. -/
def AssetLeR (a b : AssetR M) : Prop := StrLeR a.filename b.filename

instance : DecidableRel (@AssetLeR M) := fun a b =>
  inferInstanceAs (Decidable (strLe a.filename b.filename = true))

instance : IsTotal (AssetR M) AssetLeR :=
  ⟨fun a b => IsTotal.total (r := StrLeR) a.filename b.filename⟩

instance : IsTrans (AssetR M) AssetLeR :=
  ⟨fun _ _ _ hab hbc => IsTrans.trans (r := StrLeR) _ _ _ hab hbc⟩

/-- `Asset.sorted_by_filename(assets)`: a stable sort by export path. -/
def sorted_by_filename (assets : List (AssetR M)) : List (AssetR M) :=
  assets.insertionSort AssetLeR

/-- `PackageConfiguration.find_assets` from the aggregated
`assets_by_package_name` onward (lines 2251-2303): group by export path,
raise (`.error`) on metadata conflicts when strict checking is on,
deduplicate keeping the first occurrence, sort by export path, then drop
assets matching an exclusion pattern (each exclusion regular expression is
modelled as its match predicate). -/
def find_assets_core (grouped : List (String × List (AssetR M)))
    (check_for_duplicates : Bool) (excludes : List (String → Bool)) :
    Except (List (String × List String)) (List (AssetR M)) :=
  let flat := flattenPkgs grouped
  let errors := duplicateAssetsErrors flat
  if check_for_duplicates ∧ ¬ errors.isEmpty then .error errors
  else
    let found := (keysInOrder (flat.map (·.2.filename))).filterMap
      (fun f => (flat.find? (fun pa => pa.2.filename = f)).map (·.2))
    let found := sorted_by_filename found
    let found :=
      if excludes.isEmpty then found
      else found.filter (fun a => ¬ excludes.any (fun p => p a.filename))
    .ok found

theorem mem_keysInOrder_go : ∀ (l acc : List String) (f : String),
    f ∈ l.foldl keysInOrderStep acc ↔ f ∈ acc ∨ f ∈ l
  | [], acc, f => by simp
  | g :: rest, acc, f => by
    rw [List.foldl_cons, mem_keysInOrder_go rest (keysInOrderStep acc g) f]
    unfold keysInOrderStep
    by_cases hg : g ∈ acc
    · rw [if_pos hg]
      simp only [List.mem_cons]
      constructor
      · rintro (h | h)
        · exact .inl h
        · exact .inr (.inr h)
      · rintro (h | h | h)
        · exact .inl h
        · exact .inl (h ▸ hg)
        · exact .inr h
    · rw [if_neg hg]
      simp only [List.mem_append, List.mem_singleton, List.mem_cons]
      tauto

theorem mem_keysInOrder (l : List String) (f : String) :
    f ∈ keysInOrder l ↔ f ∈ l := by
  rw [keysInOrder, mem_keysInOrder_go]
  simp

theorem nodup_keysInOrder_go : ∀ (l acc : List String), acc.Nodup →
    (l.foldl keysInOrderStep acc).Nodup
  | [], _, h => h
  | g :: rest, acc, h => by
    rw [List.foldl_cons]
    refine nodup_keysInOrder_go rest _ ?_
    unfold keysInOrderStep
    by_cases hg : g ∈ acc
    · rw [if_pos hg]
      exact h
    · rw [if_neg hg]
      simp [List.nodup_append, h, hg]

theorem nodup_keysInOrder (l : List String) : (keysInOrder l).Nodup :=
  nodup_keysInOrder_go l [] List.nodup_nil

theorem adjDiff_nil_all_eq :
    ∀ {l : List (String × AssetR M)}, adjDiff l = [] →
      ∀ x ∈ l, ∀ y ∈ l, x.2.meta = y.2.meta
  | [], _, x, hx, _, _ => by cases hx
  | [a], _, x, hx, y, hy => by
    rw [List.mem_singleton] at hx hy
    rw [hx, hy]
  | (p1, a1) :: (p2, a2) :: rest, h, x, hx, y, hy => by
    rw [adjDiff, List.append_eq_nil] at h
    have h12 : a1.meta = a2.meta := by
      by_contra hne
      rw [if_pos hne] at h
      cases h.1
    have htail := adjDiff_nil_all_eq (l := (p2, a2) :: rest) h.2
    have hhead : ∀ z ∈ (p1, a1) :: (p2, a2) :: rest,
        z.2.meta = a2.meta := by
      intro z hz
      rcases List.mem_cons.mp hz with hz1 | hz2
      · rw [hz1]
        exact h12
      · exact htail z hz2 (p2, a2) (List.mem_cons_self _ _)
    rw [hhead x hx, hhead y hy]

theorem adjDiff_ne_nil_exists :
    ∀ {l : List (String × AssetR M)}, adjDiff l ≠ [] →
      ∃ x ∈ l, ∃ y ∈ l, x.2.meta ≠ y.2.meta
  | [], h => absurd rfl h
  | [_], h => absurd rfl h
  | (p1, a1) :: (p2, a2) :: rest, h => by
    rw [adjDiff] at h
    by_cases hne : a1.meta ≠ a2.meta
    · exact ⟨(p1, a1), List.mem_cons_self _ _,
        (p2, a2), List.mem_cons_of_mem _ (List.mem_cons_self _ _), hne⟩
    · rw [if_neg hne, List.nil_append] at h
      obtain ⟨x, hx, y, hy, hxy⟩ := adjDiff_ne_nil_exists h
      exact ⟨x, List.mem_cons_of_mem _ hx, y, List.mem_cons_of_mem _ hy, hxy⟩

/-- Membership in the collected conflict list: exactly the export paths
with two contributions of differing effective metadata, each paired with
the sorted set of adjacently-differing package names. -/
theorem mem_duplicateAssetsErrors (flat : List (String × AssetR M))
    (f : String) (ps : List String) :
    (f, ps) ∈ duplicateAssetsErrors flat ↔
      ((∃ p1 m1, (p1, AssetR.mk f m1) ∈ flat ∧
        ∃ p2 m2, (p2, AssetR.mk f m2) ∈ flat ∧ m1 ≠ m2) ∧
       ps = sortedStringSet (adjDiff (flat.filter (fun pa => pa.2.filename = f)))) := by
  unfold duplicateAssetsErrors
  rw [List.mem_filterMap]
  constructor
  · rintro ⟨g, hg, hsome⟩
    by_cases hlen : (flat.filter (fun pa => pa.2.filename = g)).length ≤ 1
    · rw [if_pos hlen] at hsome
      cases hsome
    · rw [if_neg hlen] at hsome
      by_cases hd : (adjDiff (flat.filter (fun pa => pa.2.filename = g))).isEmpty
      · rw [if_pos hd] at hsome
        cases hsome
      · rw [if_neg hd] at hsome
        injection hsome with hpair
        injection hpair with hf hps
        subst g
        refine ⟨?_, hps.symm⟩
        have hne : adjDiff (flat.filter (fun pa => pa.2.filename = f)) ≠ [] := by
          intro hnil
          rw [hnil] at hd
          exact hd rfl
        obtain ⟨x, hx, y, hy, hxy⟩ := adjDiff_ne_nil_exists hne
        rw [List.mem_filter] at hx hy
        have hxf : x.2.filename = f := by simpa using hx.2
        have hyf : y.2.filename = f := by simpa using hy.2
        refine ⟨x.1, x.2.meta, ?_, y.1, y.2.meta, ?_, hxy⟩
        · have : x.2 = AssetR.mk f x.2.meta := by
            cases hx2 : x.2
            simp_all
          rw [← this]
          exact hx.1
        · have : y.2 = AssetR.mk f y.2.meta := by
            cases hy2 : y.2
            simp_all
          rw [← this]
          exact hy.1
  · rintro ⟨⟨p1, m1, h1, p2, m2, h2, hne⟩, hps⟩
    refine ⟨f, ?_, ?_⟩
    · rw [mem_keysInOrder, List.mem_map]
      exact ⟨(p1, AssetR.mk f m1), h1, rfl⟩
    · have hm1 : (p1, AssetR.mk f m1) ∈ flat.filter (fun pa => pa.2.filename = f) := by
        rw [List.mem_filter]
        exact ⟨h1, by simp⟩
      have hm2 : (p2, AssetR.mk f m2) ∈ flat.filter (fun pa => pa.2.filename = f) := by
        rw [List.mem_filter]
        exact ⟨h2, by simp⟩
      have hlen : ¬ (flat.filter (fun pa => pa.2.filename = f)).length ≤ 1 := by
        intro hle
        match hfe : flat.filter (fun pa => pa.2.filename = f) with
        | [] =>
          rw [hfe] at hm1
          cases hm1
        | [z] =>
          rw [hfe] at hm1 hm2
          rw [List.mem_singleton] at hm1 hm2
          rw [← hm2] at hm1
          injection hm1 with _ hm
          injection hm with _ hmm
          exact hne hmm
        | x :: y :: rest =>
          rw [hfe] at hle
          simp at hle
      rw [if_neg hlen]
      have hdne : adjDiff (flat.filter (fun pa => pa.2.filename = f)) ≠ [] := by
        intro hnil
        exact hne (adjDiff_nil_all_eq hnil _ hm1 _ hm2)
      rw [if_neg (by simpa [List.isEmpty_iff] using hdne), hps]

/-- C2 (amended): with strict duplicate checking (the direct call),
`find_assets` raises exactly when some export path has more than one
contribution whose effective importer metadata differs; the error lists
exactly the conflicting paths, each with the sorted set of package names
appearing in adjacent differing contributions (which, when exactly two
packages contribute to the path, is both package names); the recursive
call for included packages (checking disabled) never raises. -/
theorem find_assets_conflicts (grouped : List (String × List (AssetR M)))
    (excludes : List (String → Bool)) :
    (∀ e, find_assets_core grouped false excludes ≠ .error e) ∧
    ((∃ e, find_assets_core grouped true excludes = .error e) ↔
      ∃ f p1 m1 p2 m2, (p1, AssetR.mk f m1) ∈ flattenPkgs grouped ∧
        (p2, AssetR.mk f m2) ∈ flattenPkgs grouped ∧ m1 ≠ m2) ∧
    (∀ errs, find_assets_core grouped true excludes = .error errs →
      ∀ f ps, (f, ps) ∈ errs ↔
        ((∃ p1 m1, (p1, AssetR.mk f m1) ∈ flattenPkgs grouped ∧
          ∃ p2 m2, (p2, AssetR.mk f m2) ∈ flattenPkgs grouped ∧ m1 ≠ m2) ∧
         ps = sortedStringSet (adjDiff
           ((flattenPkgs grouped).filter (fun pa => pa.2.filename = f))))) := by
  refine ⟨?_, ?_, ?_⟩
  · intro e
    unfold find_assets_core
    rw [if_neg (by simp)]
    intro h
    cases h
  · unfold find_assets_core
    by_cases herr : (duplicateAssetsErrors (flattenPkgs grouped)).isEmpty
    · rw [if_neg (by simp [herr])]
      constructor
      · rintro ⟨e, he⟩
        cases he
      · rintro ⟨f, p1, m1, p2, m2, h1, h2, hne⟩
        have : (f, sortedStringSet (adjDiff
            ((flattenPkgs grouped).filter (fun pa => pa.2.filename = f)))) ∈
            duplicateAssetsErrors (flattenPkgs grouped) :=
          (mem_duplicateAssetsErrors _ _ _).mpr
            ⟨⟨p1, m1, h1, p2, m2, h2, hne⟩, rfl⟩
        rw [List.isEmpty_iff] at herr
        rw [herr] at this
        cases this
    · rw [if_pos (by simp [herr])]
      constructor
      · rintro ⟨e, he⟩
        have hne : duplicateAssetsErrors (flattenPkgs grouped) ≠ [] := by
          simpa [List.isEmpty_iff] using herr
        match hDE : duplicateAssetsErrors (flattenPkgs grouped), hne with
        | (f, ps) :: _, _ =>
          have hmem : (f, ps) ∈ duplicateAssetsErrors (flattenPkgs grouped) := by
            rw [hDE]
            exact List.mem_cons_self _ _
          obtain ⟨⟨p1, m1, h1, p2, m2, h2, hne'⟩, _⟩ :=
            (mem_duplicateAssetsErrors _ _ _).mp hmem
          exact ⟨f, p1, m1, p2, m2, h1, h2, hne'⟩
      · intro _
        exact ⟨duplicateAssetsErrors (flattenPkgs grouped), rfl⟩
  · intro errs herrs f ps
    unfold find_assets_core at herrs
    by_cases herr : (duplicateAssetsErrors (flattenPkgs grouped)).isEmpty
    · rw [if_neg (by simp [herr])] at herrs
      cases herrs
    · rw [if_pos (by simp [herr])] at herrs
      injection herrs with herrs
      rw [← herrs]
      exact mem_duplicateAssetsErrors _ _ _

omit [DecidableEq M] in
theorem dedup_map_filename (flat : List (String × AssetR M)) :
    ∀ keys : List String, (∀ f ∈ keys, ∃ pa ∈ flat, pa.2.filename = f) →
      ((keys.filterMap
        (fun f => (flat.find? (fun pa => pa.2.filename = f)).map (·.2))).map
          (·.filename)) = keys
  | [], _ => rfl
  | f :: rest, h => by
    have hsome : (flat.find? (fun pa => pa.2.filename = f)).isSome := by
      rw [List.find?_isSome]
      obtain ⟨pa, hpa, hf⟩ := h f (List.mem_cons_self _ _)
      exact ⟨pa, hpa, by simp [hf]⟩
    obtain ⟨pa, hpa⟩ := Option.isSome_iff_exists.mp hsome
    have hfile : pa.2.filename = f := by
      have := List.find?_some hpa
      simpa using this
    rw [List.filterMap_cons, hpa, Option.map_some', List.map_cons, hfile,
      dedup_map_filename flat rest (fun g hg => h g (List.mem_cons_of_mem _ hg))]

/-- C8: every successfully returned asset list contains at most one asset
per export path, each being the first-discovered contribution for that
path, contains no asset whose export path matches an exclusion predicate,
and is sorted in ascending order of export path. -/
theorem find_assets_result_spec (grouped : List (String × List (AssetR M)))
    (check : Bool) (excludes : List (String → Bool))
    (result : List (AssetR M))
    (hok : find_assets_core grouped check excludes = .ok result) :
    (result.map (·.filename)).Nodup ∧
    List.Sorted AssetLeR result ∧
    (∀ a ∈ result, ∀ p ∈ excludes, p a.filename = false) ∧
    (∀ a ∈ result,
      ((flattenPkgs grouped).find?
        (fun pa => pa.2.filename = a.filename)).map (·.2) = some a) := by
  unfold find_assets_core at hok
  set flat := flattenPkgs grouped with hflat
  by_cases herr : check = true ∧
      ¬ (duplicateAssetsErrors flat).isEmpty = true
  · rw [if_pos herr] at hok
    cases hok
  · rw [if_neg herr] at hok
    injection hok with hok
    set dedup := (keysInOrder (flat.map (·.2.filename))).filterMap
      (fun f => (flat.find? (fun pa => pa.2.filename = f)).map (·.2)) with hdedup
    have hmapkeys : dedup.map (·.filename) = keysInOrder (flat.map (·.2.filename)) := by
      rw [hdedup]
      exact dedup_map_filename flat _ (fun f hf => by
        rw [mem_keysInOrder] at hf
        obtain ⟨pa, hpa, hfa⟩ := List.mem_map.mp hf
        exact ⟨pa, hpa, hfa⟩)
    have hnodup_dedup : (dedup.map (·.filename)).Nodup := by
      rw [hmapkeys]
      exact nodup_keysInOrder _
    have hperm : (sorted_by_filename dedup).Perm dedup :=
      List.perm_insertionSort AssetLeR dedup
    have hnodup_sorted : ((sorted_by_filename dedup).map (·.filename)).Nodup :=
      ((hperm.map (·.filename)).nodup_iff).mpr hnodup_dedup
    have hsorted : List.Sorted AssetLeR (sorted_by_filename dedup) :=
      List.sorted_insertionSort AssetLeR dedup
    have hsub : result.Sublist (sorted_by_filename dedup) := by
      rw [← hok]
      by_cases hex : excludes.isEmpty
      · rw [if_pos hex]
      · rw [if_neg hex]
        exact List.filter_sublist _
    refine ⟨?_, ?_, ?_, ?_⟩
    · exact ((hsub.map (·.filename)).nodup hnodup_sorted)
    · exact hsorted.sublist hsub
    · intro a ha p hp
      by_cases hex : excludes.isEmpty
      · rw [List.isEmpty_iff] at hex
        rw [hex] at hp
        cases hp
      · rw [← hok, if_neg hex] at ha
        have hpred := (List.mem_filter.mp ha).2
        simp only [decide_eq_true_eq, List.any_eq_true, not_exists, not_and] at hpred
        have := hpred p hp
        simpa using this
    · intro a ha
      have hadedup : a ∈ dedup := hperm.mem_iff.mp (hsub.mem ha)
      obtain ⟨f, hfk, hfa⟩ := List.mem_filterMap.mp hadedup
      obtain ⟨pa, hfind⟩ :
          ∃ pa, flat.find? (fun pa => pa.2.filename = f) = some pa := by
        cases hfo : flat.find? (fun pa => pa.2.filename = f) with
        | none =>
          rw [hfo] at hfa
          cases hfa
        | some pa => exact ⟨pa, rfl⟩
      rw [hfind, Option.map_some'] at hfa
      injection hfa with hfa
      have hfile : pa.2.filename = f := by
        have := List.find?_some hfind
        simpa using this
      rw [← hfa, hfile, hfind, Option.map_some']

end FindAssets

/-- Witness for C2 with package `A` (asset `f` with metadata `"m1"`) and
package `B` (same export path `f`, metadata `"m2"`): strict checking
raises, recursive (non-strict) checking does not. -/
theorem find_assets_conflicts_witness :
    ("m1" ≠ "m2") ∧
    (∃ e, find_assets_core
      [("A", [AssetR.mk "f" "m1"]), ("B", [AssetR.mk "f" "m2"])] true [] =
        .error e) ∧
    (∀ e, find_assets_core
      [("A", [AssetR.mk "f" "m1"]), ("B", [AssetR.mk "f" "m2"])] false [] ≠
        .error e) :=
  ⟨by decide,
   (find_assets_conflicts
      [("A", [AssetR.mk "f" "m1"]), ("B", [AssetR.mk "f" "m2"])] []).2.1.mpr
     ⟨"f", "A", "m1", "B", "m2", by decide, by decide, by decide⟩,
   (find_assets_conflicts
      [("A", [AssetR.mk "f" "m1"]), ("B", [AssetR.mk "f" "m2"])] []).1⟩

/-- Counterexample for C2's "set of contributing package names": three
packages contribute export path `f` — `A` and `B` with equal metadata
`m1`, `C` with metadata `m2`.  Strict checking raises, but the error for
`f` names only `B` and `C`: the adjacent-pair scan of lines 2262-2273
never records `A`, a contributing package, because its document equals
its neighbour's. -/
theorem find_assets_three_package_conflict :
    (find_assets_core
      [("A", [AssetR.mk "f" "m1"]), ("B", [AssetR.mk "f" "m1"]),
       ("C", [AssetR.mk "f" "m2"])] true [] =
      .error [("f", ["B", "C"])]) ∧
    ("A", AssetR.mk "f" ("m1" : String)) ∈ flattenPkgs
      [("A", [AssetR.mk "f" "m1"]), ("B", [AssetR.mk "f" "m1"]),
       ("C", [AssetR.mk "f" "m2"])] ∧
    "A" ∉ ["B", "C"] := by decide

/-- Witness for C8: packages `A` and `B` contribute the path `b` twice with
equal metadata (first occurrence kept), path `x` is excluded by the
exclusion predicate, and the result is `[a, b]`, deduplicated and sorted. -/
theorem find_assets_result_spec_witness :
    (find_assets_core
      [("A", [AssetR.mk "b" "m", AssetR.mk "a" "m", AssetR.mk "x" "m"]),
       ("B", [AssetR.mk "b" "m"])] true [fun s => s == "x"] =
      .ok [AssetR.mk "a" "m", AssetR.mk "b" "m"]) ∧
    (([AssetR.mk "a" "m", AssetR.mk "b" (M := String) "m"].map
      (·.filename)).Nodup ∧
     (∀ a ∈ [AssetR.mk "a" "m", AssetR.mk "b" (M := String) "m"],
        ∀ p ∈ [fun s => s == "x"], p a.filename = false)) :=
  ⟨by decide,
   (find_assets_result_spec
      [("A", [AssetR.mk "b" "m", AssetR.mk "a" "m", AssetR.mk "x" "m"]),
       ("B", [AssetR.mk "b" "m"])] true [fun s => s == "x"]
      [AssetR.mk "a" "m", AssetR.mk "b" "m"] (by decide)).1,
   (find_assets_result_spec
      [("A", [AssetR.mk "b" "m", AssetR.mk "a" "m", AssetR.mk "x" "m"]),
       ("B", [AssetR.mk "b" "m"])] true [fun s => s == "x"]
      [AssetR.mk "a" "m", AssetR.mk "b" "m"] (by decide)).2.2.1⟩

/-! ### C9: `PackageConfiguration.create_archive`

`create_archive` (lines 2537-2640) packs a staging directory.  The
filesystem walk is modelled by the list of files it yields (name, on-disk
modification time, byte content) in arbitrary order; "wall-clock time" is
the parameter `now`.  The archive itself is modelled by everything that
determines its bytes: for the native-tar path, the constructed `tar`
argument list (which fixes `--mtime`/`--owner`/`--group`), the
`GZIP=-n` environment (gzip header timestamp suppressed) and the entries
as the tool records them; for the in-process `tarfile`/`gzip` path, the
gzip header name and mtime and the per-entry metadata the
`reproducible_tarinfo` hook produces.  The native branch modelled is the
GNU-tar (Linux) one; the BSD variant applies the same fixed mtime through
`os.utime` under the same `if FLAGS.timestamp:` guard, so it shares the
truthiness boundary shown below. -/

/-- A file produced by walking the staging directory. -/
structure FileEnt where
  name : String
  mtime : Int
  content : String
deriving DecidableEq, Repr

/-- A tar entry as written by the in-process path's
`reproducible_tarinfo`. -/
structure TarEntryRec where
  name : String
  mtime : Int
  uid : Nat
  gid : Nat
  uname : String
  gname : String
  content : String
deriving DecidableEq, Repr

/-- Everything that determines the bytes of the produced archive. -/
inductive ArchiveDesc where
  | native (tar_args : List String) (gzip_env_no_timestamp : Bool)
      (entries : List (String × Int × String))
  | inProcess (gzip_name : String) (gzip_mtime : Int)
      (entries : List TarEntryRec)
deriving DecidableEq, Repr

/-- The root part of `os.path.splitext(path)` (the path minus
`splitext_ext path`). -/
def splitext_root (path : String) : String :=
  String.mk (path.data.take (path.data.length - (splitext_ext path).data.length))

/-- The walked files with their paths normalised (`os.path.normpath`). -/
def normEntries (tree : List FileEnt) : List FileEnt :=
  tree.map (fun e => { e with name := normpath e.name })

/-- The content of the file named `n`. -/
def contentOf (entries : List FileEnt) (n : String) : String :=
  ((entries.find? (fun e => e.name = n)).map (·.content)).getD ""

/-- The on-disk modification time of the file named `n`. -/
def mtimeOfEnt (entries : List FileEnt) (n : String) : Int :=
  ((entries.find? (fun e => e.name = n)).map (·.mtime)).getD 0

/-- The GNU-tar argument list assembled by lines 2580-2601: `--mtime` only
when `FLAGS.timestamp` is truthy, owner/group pinned, no recursion. -/
def tarArgsOf (archive_filename : String) (flag_timestamp : Int)
    (owner group : String) : List String :=
  ["tar", "-c", "-z", "-f", archive_filename] ++
    (if flag_timestamp ≠ 0 then ["--mtime=@" ++ toString flag_timestamp]
     else []) ++
    ["--owner=" ++ owner, "--group=" ++ group, "--no-recursion"]

/-- The entries GNU tar records: the sorted input file list; each entry's
mtime is the `--mtime` override when `FLAGS.timestamp` is truthy,
otherwise the file's on-disk mtime. -/
def nativeEntries (flag_timestamp : Int) (entries : List FileEnt) :
    List (String × Int × String) :=
  (sortStrings (entries.map (·.name))).map (fun n =>
    (n, if flag_timestamp ≠ 0 then flag_timestamp else mtimeOfEnt entries n,
     contentOf entries n))

/-- The entries the in-process `tarfile` writer records after
`reproducible_tarinfo`: mtime pinned when `timestamp >= 0`, uid/gid `0`,
owner/group from the flags. -/
def inProcessEntries (timestamp : Int) (owner group : String)
    (entries : List FileEnt) : List TarEntryRec :=
  (sortStrings (entries.map (·.name))).map (fun n =>
    { name := n
      mtime := if timestamp ≥ 0 then timestamp else mtimeOfEnt entries n
      uid := 0
      gid := 0
      uname := owner
      gname := group
      content := contentOf entries n })

/-- `PackageConfiguration.create_archive(archive_filename, input_directory,
timestamp)`.  `use_native_gnu_tar` models `tar_available and
FLAGS.use_tar` (with GNU tar); `flag_timestamp` is `FLAGS.timestamp` and
`timestamp` the function argument (callers pass `FLAGS.timestamp` for
both); `now` is the current wall-clock time (used by `gzip.GzipFile` when
`mtime=None`).  Note the native path guards the `--mtime` override with
`if FLAGS.timestamp:` — Python truthiness, i.e. `≠ 0` — while the
in-process path tests `timestamp >= 0`. -/
def create_archive (archive_filename : String) (use_native_gnu_tar : Bool)
    (flag_timestamp : Int) (owner group : String) (timestamp : Int)
    (now : Int) (tree : List FileEnt) : ArchiveDesc :=
  if use_native_gnu_tar then
    .native (tarArgsOf archive_filename flag_timestamp owner group) true
      (nativeEntries flag_timestamp (normEntries tree))
  else
    .inProcess (splitext_root archive_filename ++ ".tar.gz")
      (if timestamp ≥ 0 then timestamp else now)
      (inProcessEntries timestamp owner group (normEntries tree))

theorem nodup_fst_mem_eq {α β : Type} [DecidableEq α] :
    ∀ {l : List (α × β)} {k : α} {v1 v2 : β},
      (l.map Prod.fst).Nodup → (k, v1) ∈ l → (k, v2) ∈ l → v1 = v2
  | x :: rest, k, v1, v2, hnd, h1, h2 => by
    rw [List.map_cons, List.nodup_cons] at hnd
    rcases List.mem_cons.mp h1 with he1 | hm1
    · rcases List.mem_cons.mp h2 with he2 | hm2
      · exact congrArg Prod.snd (he1.trans he2.symm)
      · rw [← he1] at hnd
        exact absurd (List.mem_map_of_mem Prod.fst hm2) hnd.1
    · rcases List.mem_cons.mp h2 with he2 | hm2
      · rw [← he2] at hnd
        exact absurd (List.mem_map_of_mem Prod.fst hm1) hnd.1
      · exact nodup_fst_mem_eq hnd.2 hm1 hm2

theorem find_ent_eq {e1 e2 : List FileEnt}
    (hperm : (e1.map (fun e => (e.name, e.content))).Perm
      (e2.map (fun e => (e.name, e.content))))
    (hnd : (e1.map (·.name)).Nodup) (n : String) :
    (e1.find? (fun e => e.name = n)).map (·.content) =
      (e2.find? (fun e => e.name = n)).map (·.content) := by
  have hnd2 : (e2.map (·.name)).Nodup := by
    have hmapeq : ∀ l : List FileEnt,
        (l.map (fun e => (e.name, e.content))).map Prod.fst = l.map (·.name) := by
      intro l
      rw [List.map_map]
      rfl
    have := (hperm.map Prod.fst).nodup_iff.mp (by rw [hmapeq]; exact hnd)
    rw [hmapeq] at this
    exact this
  cases hf1 : e1.find? (fun e => e.name = n) with
  | none =>
    cases hf2 : e2.find? (fun e => e.name = n) with
    | none => rfl
    | some b =>
      have hb := List.find?_some hf2
      have hbm := List.mem_of_find?_eq_some hf2
      have hbn : b.name = n := by simpa using hb
      have : (n, b.content) ∈ e1.map (fun e => (e.name, e.content)) := by
        rw [hperm.mem_iff]
        exact List.mem_map.mpr ⟨b, hbm, by rw [hbn]⟩
      obtain ⟨a, ham, ha⟩ := List.mem_map.mp this
      have han : a.name = n := congrArg Prod.fst ha
      have : (e1.find? (fun e => e.name = n)).isSome := by
        rw [List.find?_isSome]
        exact ⟨a, ham, by simp [han]⟩
      rw [hf1] at this
      cases this
  | some a =>
    have ha := List.find?_some hf1
    have ham := List.mem_of_find?_eq_some hf1
    have han : a.name = n := by simpa using ha
    have hpair : (n, a.content) ∈ e2.map (fun e => (e.name, e.content)) := by
      rw [← hperm.mem_iff]
      exact List.mem_map.mpr ⟨a, ham, by rw [han]⟩
    obtain ⟨b, hbm, hb⟩ := List.mem_map.mp hpair
    have hbn : b.name = n := congrArg Prod.fst hb
    have hsome2 : (e2.find? (fun e => e.name = n)).isSome := by
      rw [List.find?_isSome]
      exact ⟨b, hbm, by simp [hbn]⟩
    obtain ⟨b', hb'⟩ := Option.isSome_iff_exists.mp hsome2
    have hb'n : b'.name = n := by simpa using List.find?_some hb'
    have hb'm := List.mem_of_find?_eq_some hb'
    have hpair' : (n, b'.content) ∈ e1.map (fun e => (e.name, e.content)) := by
      rw [hperm.mem_iff]
      exact List.mem_map.mpr ⟨b', hb'm, by rw [hb'n]⟩
    rw [hb', Option.map_some', Option.map_some']
    have hnd1' : ((e1.map (fun e => (e.name, e.content))).map Prod.fst).Nodup := by
      rw [List.map_map]
      exact hnd
    have hapair : (n, a.content) ∈ e1.map (fun e => (e.name, e.content)) :=
      List.mem_map.mpr ⟨a, ham, by rw [han]⟩
    rw [nodup_fst_mem_eq hnd1' hapair hpair']

/-- Counterexample to C9 as stated: with the configured timestamp fixed at
`0` — which is non-negative — the native-tar path treats the flag as unset
(`if FLAGS.timestamp:` is Python truthiness), omits the `--mtime`
override, and the recorded entry modification times follow the on-disk
mtimes: two runs over byte-identical trees whose files carry different
mtimes produce different archives. -/
theorem create_archive_timestamp_zero_not_deterministic :
    ((0 : Int) ≥ 0) ∧
    ([FileEnt.mk "a" 5 "x"].map (fun e => (normpath e.name, e.content)) =
      [FileEnt.mk "a" 7 "x"].map (fun e => (normpath e.name, e.content))) ∧
    create_archive "out.tgz" true 0 "root" "root" 0 100 [FileEnt.mk "a" 5 "x"] ≠
      create_archive "out.tgz" true 0 "root" "root" 0 100 [FileEnt.mk "a" 7 "x"] := by
  decide

/-- C9 (amended): with a fixed **positive** configured timestamp, two runs
of `create_archive` over byte-identical input trees — same
(normalised-name, content) sets, distinct names — produce identical
archives, regardless of wall-clock time and of the input files' on-disk
modification times, in both the native-tar path (gzip header suppressed
via `GZIP=-n`, `--mtime`/owner/group pinned) and the in-process path (gzip
header mtime and every entry's mtime/uid/gid/owner/group pinned by
`reproducible_tarinfo`).  With timestamp `0` the in-process path is still
deterministic but the native path is not
(`create_archive_timestamp_zero_not_deterministic`). -/
theorem create_archive_deterministic
    (archive_filename : String) (native : Bool) (owner group : String)
    (ts now1 now2 : Int) (t1 t2 : List FileEnt)
    (hts : 0 < ts)
    (hsame : (t1.map (fun e => (normpath e.name, e.content))).Perm
      (t2.map (fun e => (normpath e.name, e.content))))
    (hnd : (t1.map (fun e => normpath e.name)).Nodup) :
    create_archive archive_filename native ts owner group ts now1 t1 =
      create_archive archive_filename native ts owner group ts now2 t2 := by
  have hts0 : ts ≠ 0 := by omega
  have htsge : ts ≥ 0 := by omega
  have hperm : ((normEntries t1).map (fun e => (e.name, e.content))).Perm
      ((normEntries t2).map (fun e => (e.name, e.content))) := by
    have h1 : (normEntries t1).map (fun e => (e.name, e.content)) =
        t1.map (fun e => (normpath e.name, e.content)) := by
      rw [normEntries, List.map_map]
      rfl
    have h2 : (normEntries t2).map (fun e => (e.name, e.content)) =
        t2.map (fun e => (normpath e.name, e.content)) := by
      rw [normEntries, List.map_map]
      rfl
    rw [h1, h2]
    exact hsame
  have hnd1 : ((normEntries t1).map (·.name)).Nodup := by
    have h1 : (normEntries t1).map (·.name) = t1.map (fun e => normpath e.name) := by
      rw [normEntries, List.map_map]
      rfl
    rw [h1]
    exact hnd
  have hnames : sortStrings ((normEntries t1).map (·.name)) =
      sortStrings ((normEntries t2).map (·.name)) := by
    have hp : ((normEntries t1).map (·.name)).Perm ((normEntries t2).map (·.name)) := by
      have hmap : ∀ u : List FileEnt,
          (u.map (fun e => (e.name, e.content))).map Prod.fst = u.map (·.name) := by
        intro u
        rw [List.map_map]
        rfl
      have := hperm.map Prod.fst
      rw [hmap, hmap] at this
      exact this
    exact List.eq_of_perm_of_sorted
      (((List.perm_insertionSort StrLeR _).trans hp).trans
        (List.perm_insertionSort StrLeR _).symm)
      (List.sorted_insertionSort StrLeR _)
      (List.sorted_insertionSort StrLeR _)
  have hcont : ∀ n, contentOf (normEntries t1) n = contentOf (normEntries t2) n := by
    intro n
    unfold contentOf
    rw [find_ent_eq hperm hnd1 n]
  unfold create_archive
  by_cases hn : native = true
  · rw [if_pos hn, if_pos hn]
    refine congrArg (ArchiveDesc.native _ _) ?_
    unfold nativeEntries
    rw [hnames]
    refine List.map_congr_left (fun n _ => ?_)
    rw [if_pos hts0, if_pos hts0, hcont n]
  · rw [if_neg hn, if_neg hn, if_pos htsge, if_pos htsge]
    refine congrArg (ArchiveDesc.inProcess _ _) ?_
    unfold inProcessEntries
    rw [hnames]
    refine List.map_congr_left (fun n _ => ?_)
    rw [if_pos htsge, if_pos htsge, hcont n]

/-- Witness for the amended C9: timestamp `1`, two walks of the same tree
(file `a`, content `x`) with different on-disk mtimes and different
wall-clock times, native-tar path — identical archives. -/
theorem create_archive_deterministic_witness :
    ((0 : Int) < 1 ∧
     ([FileEnt.mk "a" 5 "x"].map (fun e => (normpath e.name, e.content)) =
       [FileEnt.mk "a" 7 "x"].map (fun e => (normpath e.name, e.content))) ∧
     ([FileEnt.mk "a" 5 "x"].map (fun e => normpath e.name)).Nodup) ∧
    create_archive "out.tgz" true 1 "root" "root" 1 100 [FileEnt.mk "a" 5 "x"] =
      create_archive "out.tgz" true 1 "root" "root" 1 200 [FileEnt.mk "a" 7 "x"] :=
  ⟨⟨by decide, by decide, by decide⟩,
   create_archive_deterministic "out.tgz" true "root" "root" 1 100 200
     [FileEnt.mk "a" 5 "x"] [FileEnt.mk "a" 7 "x"] (by decide)
     ((by decide : [FileEnt.mk "a" 5 "x"].map (fun e => (normpath e.name, e.content)) =
       [FileEnt.mk "a" 7 "x"].map (fun e => (normpath e.name, e.content))) ▸
       List.Perm.refl _)
     (by decide)⟩

/-! ### C3: the `ProjectConfiguration.selected_sections` setter

The setter (lines 3092-3154) rebuilds the enabled-package map for a new
section set, validating for duplicate exported names (before any
mutation) and for missing or circular includes (after tentatively
installing the new map, with an explicit rollback in the `except`
handler).  The mutable object state — `_selected_sections`,
`_packages_by_name`, `_builds` — becomes `ProjState`; the static
`_packages` / `_all_builds` lists are parameters. -/

/-- A parsed package: name, enabling sections, and the names it
includes. -/
structure PkgC where
  name : String
  sections : List String
  includes : List String
deriving DecidableEq, Repr

/-- A build configuration (only its enabling sections are observed by the
setter). -/
structure BuildC where
  sections : List String
deriving DecidableEq, Repr

/-- The mutable state of a `ProjectConfiguration`. -/
structure ProjState where
  selectedSections : Option (List String)
  packagesByName : List (String × PkgC)
  builds : List BuildC
deriving DecidableEq, Repr

/-- The configuration errors the setter can raise
(`ProjectConfigurationError`, distinguished by message). -/
inductive ConfigErr where
  | duplicatePackages (names : List String)
  | circularInclude (name : String) (parents : List String)
  | missingIncludes (name : String) (missing : List String)
deriving DecidableEq, Repr

/-- `ConfigurationBlock.get_enabled(sections)` (lines 1761-1773): enabled
when the block lists no sections or its section set intersects the active
one. -/
def block_get_enabled (block_sections : List String)
    (sections : List String) : Bool :=
  block_sections.isEmpty || block_sections.any (fun s => sections.contains s)

/-- Python `set(a) == set(b)`. -/
def setEq (a b : List String) : Bool :=
  a.all (b.contains ·) && b.all (a.contains ·)

/-- Lookup in the enabled-package map. -/
def lookupPkg (m : List (String × PkgC)) (n : String) : Option PkgC :=
  (m.find? (fun kv => kv.1 = n)).map (·.2)

/-- `PackageConfiguration._get_includes(recursive=False)` (lines
2135-2165): resolves each included name against the project's
`packages_by_name`, raising on missing names, and deduplicates the found
packages by name keeping the first occurrence. -/
def resolveIncludes (m : List (String × PkgC)) (pkg : PkgC) :
    Except ConfigErr (List PkgC) :=
  let found := pkg.includes.filterMap (lookupPkg m)
  let missing := pkg.includes.filter (fun n => (lookupPkg m n).isNone)
  if ¬ missing.isEmpty then .error (.missingIncludes pkg.name missing)
  else .ok ((keysInOrder (found.map (·.name))).filterMap
    (fun n => found.find? (fun p => p.name = n)))

/-- `PackageConfiguration.check_circular_references_in_includes(parents)`
(lines 2180-2197), bounded by `fuel`.  Every package on the `parents`
chain comes from the map, whose names are distinct, so for
`fuel > m.length` the cutoff (treated as a circular-inclusion error) is
unreachable: a chain longer than the number of distinct names repeats a
name and is detected one level earlier. -/
def checkCircular (m : List (String × PkgC)) :
    Nat → PkgC → List PkgC → Option ConfigErr
  | 0, pkg, parents => some (.circularInclude pkg.name (parents.map (·.name)))
  | fuel + 1, pkg, parents =>
    let parent_names := parents.map (·.name)
    if pkg.name ∈ parent_names then
      some (.circularInclude pkg.name parent_names)
    else
      match resolveIncludes m pkg with
      | .error e => some e
      | .ok incs =>
        incs.findSome? (fun inc => checkCircular m fuel inc (parents ++ [pkg]))

/-- The `for package in self.packages:
package.check_circular_references_in_includes([])` loop of lines
3139-3141, over the tentative map. -/
def checkAllCircular (m : List (String × PkgC)) : Option ConfigErr :=
  (m.map (·.2)).findSome? (fun pkg => checkCircular m (m.length + 1) pkg [])

/-- The `selected_sections` setter (lines 3092-3154): returns the state
after the assignment together with the raised error, if any.  The
duplicate-name check precedes any mutation; the include checks run
against the tentatively-installed map and the `except` handler restores
`_selected_sections` and `_packages_by_name` before re-raising. -/
def enabledPackages (packages : List PkgC) (sections : List String) :
    List PkgC :=
  packages.filter (fun p => block_get_enabled p.sections sections)

/-- The keys of the `package_list_by_name` buckets, in insertion order. -/
def enabledNames (packages : List PkgC) (sections : List String) :
    List String :=
  keysInOrder ((enabledPackages packages sections).map (·.name))

/-- The names whose bucket holds more than one enabled package. -/
def duplicateNames (packages : List PkgC) (sections : List String) :
    List String :=
  (enabledNames packages sections).filter (fun n =>
    ((enabledPackages packages sections).filter (fun p => p.name = n)).length > 1)

/-- The new `_packages_by_name`: `(name, pkgs[0])` per bucket. -/
def newPackagesByName (packages : List PkgC) (sections : List String) :
    List (String × PkgC) :=
  (enabledNames packages sections).filterMap (fun n =>
    ((enabledPackages packages sections).find? (fun p => p.name = n)).map
      (fun p => (n, p)))

def selected_sections_set (packages : List PkgC) (all_builds : List BuildC)
    (st : ProjState) (sections : List String) :
    ProjState × Option ConfigErr :=
  if (match st.selectedSections with
      | some old => setEq old sections
      | none => false) then (st, none)
  else if ¬ (duplicateNames packages sections).isEmpty then
    (st, some (.duplicatePackages (sortStrings (duplicateNames packages sections))))
  else
    match checkAllCircular (newPackagesByName packages sections) with
    | some e => (st, some e)
    | none =>
      ({ selectedSections := some sections
         packagesByName := newPackagesByName packages sections
         builds := all_builds.filter
           (fun b => block_get_enabled b.sections sections) }, none)

theorem setEq_refl (l : List String) : setEq l l = true := by
  unfold setEq
  rw [Bool.and_self, List.all_eq_true]
  intro x hx
  exact List.elem_eq_true_of_mem hx

/-- C3: assigning `selected_sections` either succeeds — leaving a section
set equivalent to the requested one installed — or raises a configuration
error (duplicate exported names, or a circular or missing include) while
leaving the observable state, the `selected_sections` value and the
`packages_by_name` map, exactly as before the assignment. -/
theorem selected_sections_set_atomic (packages : List PkgC)
    (all_builds : List BuildC) (st : ProjState) (sections : List String) :
    ((selected_sections_set packages all_builds st sections).2.isSome = true →
      (selected_sections_set packages all_builds st sections).1.selectedSections =
        st.selectedSections ∧
      (selected_sections_set packages all_builds st sections).1.packagesByName =
        st.packagesByName) ∧
    ((selected_sections_set packages all_builds st sections).2 = none →
      ∃ s, (selected_sections_set packages all_builds st sections).1.selectedSections =
        some s ∧ setEq s sections = true) := by
  unfold selected_sections_set
  by_cases hearly : (match st.selectedSections with
      | some old => setEq old sections
      | none => false) = true
  · rw [if_pos hearly]
    refine ⟨(fun h => by cases h), fun _ => ?_⟩
    match hsel : st.selectedSections with
    | some old =>
      rw [hsel] at hearly
      exact ⟨old, by simp [hsel], hearly⟩
    | none =>
      rw [hsel] at hearly
      cases hearly
  · rw [if_neg hearly]
    by_cases hdup : ¬ (duplicateNames packages sections).isEmpty = true
    · rw [if_pos hdup]
      exact ⟨fun _ => ⟨rfl, rfl⟩, fun h => by cases h⟩
    · rw [if_neg hdup]
      cases hcheck : checkAllCircular (newPackagesByName packages sections) with
      | some e =>
        exact ⟨fun _ => ⟨rfl, rfl⟩, fun h => by cases h⟩
      | none =>
        exact ⟨(fun h => by cases h), fun _ => ⟨sections, rfl, setEq_refl sections⟩⟩

/-- Witness for C3: packages `A` and `B` include each other; the
assignment raises and leaves the (empty) observable state untouched. -/
theorem selected_sections_set_atomic_witness :
    ((selected_sections_set
        [PkgC.mk "A" [] ["B"], PkgC.mk "B" [] ["A"]] []
        (ProjState.mk none [] []) []).2.isSome = true) ∧
    ((selected_sections_set
        [PkgC.mk "A" [] ["B"], PkgC.mk "B" [] ["A"]] []
        (ProjState.mk none [] []) []).1.selectedSections =
      (ProjState.mk none ([] : List (String × PkgC)) []).selectedSections ∧
     (selected_sections_set
        [PkgC.mk "A" [] ["B"], PkgC.mk "B" [] ["A"]] []
        (ProjState.mk none [] []) []).1.packagesByName =
      (ProjState.mk none ([] : List (String × PkgC)) []).packagesByName) :=
  ⟨by decide,
   (selected_sections_set_atomic
      [PkgC.mk "A" [] ["B"], PkgC.mk "B" [] ["A"]] []
      (ProjState.mk none [] []) []).1 (by decide)⟩

end ExportUnityPackage
